import Mathlib

/-!
Verification development for the browser-node repository.

The JavaScript sources are shallowly embedded: strings are `String`/`List Char`,
JavaScript objects become structures or association lists (`List (String × String)`),
browser built-ins consumed by the code (`fetch`, `JSON.parse`, `atob`,
`localStorage`) become explicit environment records, and fallible code returns
`Except`/`Option`.  Terminal/DOM output (pure UI logging) is elided.
-/

set_option maxRecDepth 10000

/-! # Basic JavaScript string semantics helpers -/

/-- ASCII lower-casing of a character, as used for case-insensitive regex
matching and `String.prototype.toLowerCase` on the ASCII inputs that appear in
the sources. -/
def toLowerAscii (c : Char) : Char :=
  if 'A' ≤ c ∧ c ≤ 'Z' then Char.ofNat (c.toNat + 32) else c

/-- Lower-case a whole string (ASCII). -/
def jsToLower (s : String) : String :=
  String.mk (s.toList.map toLowerAscii)

/-- Is `sub` a contiguous infix of `hay`? -/
def listIsInfixOf (sub : List Char) : List Char → Bool
  | [] => sub.isPrefixOf []
  | c :: t => sub.isPrefixOf (c :: t) || listIsInfixOf sub t

/-- `String.prototype.includes` (substring containment). -/
def strContains (hay sub : String) : Bool :=
  listIsInfixOf sub.toList hay.toList

/-- The character class matched by JavaScript `\s`. -/
def jsWs (c : Char) : Bool :=
  c.toNat = 0x09 ∨ c.toNat = 0x0a ∨ c.toNat = 0x0b ∨ c.toNat = 0x0c ∨
  c.toNat = 0x0d ∨ c.toNat = 0x20 ∨ c.toNat = 0xa0 ∨ c.toNat = 0x1680 ∨
  (0x2000 ≤ c.toNat ∧ c.toNat ≤ 0x200a) ∨ c.toNat = 0x2028 ∨ c.toNat = 0x2029 ∨
  c.toNat = 0x202f ∨ c.toNat = 0x205f ∨ c.toNat = 0x3000 ∨ c.toNat = 0xfeff

/-- The character class matched by JavaScript `.` without the `s` flag
(any character except line terminators). -/
def jsDot (c : Char) : Bool :=
  ¬ (c.toNat = 0x0a ∨ c.toNat = 0x0d ∨ c.toNat = 0x2028 ∨ c.toNat = 0x2029)

/-- `parseInt(s)` restricted to radix 10: skip leading whitespace, optional
sign, then a digit run; `none` models `NaN`. -/
def jsParseInt (s : List Char) : Option Int :=
  let t := s.dropWhile (fun c => jsWs c)
  let (neg, t) : Bool × List Char :=
    match t with
    | '-' :: r => (true, r)
    | '+' :: r => (false, r)
    | r => (false, r)
  let ds := t.takeWhile (fun c => c.isDigit)
  if ds.isEmpty then none
  else
    let n : Nat := ds.foldl (fun a c => a * 10 + (c.toNat - 48)) 0
    some (if neg then -(n : Int) else (n : Int))

/-! # A small regular-expression matcher

Just enough of JavaScript regex semantics (leftmost match, greedy quantifiers
with backtracking, case-insensitive literals, one capture group, global
full-match collection) to embed the fixed pattern lists of `OutputParser`,
faithfully for those patterns. -/

/-- Character classes appearing in the embedded patterns. -/
inductive CharCls where
  | ws       -- \s
  | dot      -- . (non-newline)
  | digit    -- \d
  | colonWs  -- [:\s]
deriving Repr, DecidableEq

def clsMatch : CharCls → Char → Bool
  | .ws, c => jsWs c
  | .dot, c => jsDot c
  | .digit, c => c.isDigit
  | .colonWs, c => c = ':' ∨ jsWs c

/-- Regex tokens.  `lit cs ci`: literal characters (stored lower-case when
`ci` is set); `star`/`plus1`: greedy quantified class; `digitsCap`: the single
capture group `(\d+)`; `nlaDigit`: the lookahead `(?!\d)`; `altCap`: a captured
alternation of literal strings. -/
inductive RTok where
  | lit : List Char → Bool → RTok
  | star : CharCls → RTok
  | plus1 : CharCls → RTok
  | digitsCap : RTok
  | nlaDigit : RTok
  | altCap : List (List Char) → RTok
deriving Repr

/-- Does literal `w` (ci-normalized) match a prefix of `s`? Returns the rest. -/
def litMatch (w : List Char) (ci : Bool) (s : List Char) : Option (List Char) :=
  match w, s with
  | [], s => some s
  | _ :: _, [] => none
  | p :: ps, c :: cs =>
      if (if ci then toLowerAscii c = p else c = p) then litMatch ps ci cs else none

/-- Priority-ordered candidate consumptions for one token at the head of `s`:
each candidate is (consumed length, capture contributed by this token).
Greedy quantifiers list the longest consumption first; alternations follow
their source order.  JavaScript backtracking is depth-first search over these
candidate lists. -/
def tokSplits : RTok → List Char → List (Nat × Option (List Char))
  | .lit w ci, s =>
      match litMatch w ci s with
      | some _ => [(w.length, none)]
      | none => []
  | .star cls, s =>
      let m := (s.takeWhile (fun c => clsMatch cls c)).length
      (List.range (m + 1)).reverse.map (fun k => (k, none))
  | .plus1 cls, s =>
      let m := (s.takeWhile (fun c => clsMatch cls c)).length
      ((List.range (m + 1)).reverse.filter (fun k => 1 ≤ k)).map (fun k => (k, none))
  | .digitsCap, s =>
      let m := (s.takeWhile (fun c => c.isDigit)).length
      ((List.range (m + 1)).reverse.filter (fun k => 1 ≤ k)).map
        (fun k => (k, some (s.take k)))
  | .nlaDigit, s =>
      match s with
      | c :: _ => if c.isDigit then [] else [(0, none)]
      | [] => [(0, none)]
  | .altCap alts, s =>
      alts.filterMap (fun a =>
        match litMatch a false s with
        | some _ => some (a.length, some a)
        | none => none)

/-- Match the token list at the very start of `s`; return consumed length and
the capture-group text of the first match in backtracking order. -/
def reMatchAt : List RTok → List Char → Option (Nat × Option (List Char))
  | [], _ => some (0, none)
  | tok :: rest, s =>
      (tokSplits tok s).findSome? (fun kc =>
        match reMatchAt rest (s.drop kc.1) with
        | some (n, cap) => some (kc.1 + n, kc.2.orElse (fun _ => cap))
        | none => none)

/-- Leftmost match: scan start positions left to right. Returns
(start index, length, capture). -/
def reSearch (toks : List RTok) : List Char → Option (Nat × Nat × Option (List Char))
  | [] =>
      match reMatchAt toks [] with
      | some (n, cap) => some (0, n, cap)
      | none => none
  | c :: t =>
      match reMatchAt toks (c :: t) with
      | some (n, cap) => some (0, n, cap)
      | none =>
          match reSearch toks t with
          | some (i, n, cap) => some (i + 1, n, cap)
          | none => none

/-- All non-overlapping full-match texts, as collected by `String.match` with
the `g` flag (which discards capture groups).  The fuel argument bounds the
scan; every step consumes at least one character, so `s.length + 1` suffices. -/
def gMatchesAux (toks : List RTok) : Nat → List Char → List (List Char)
  | 0, _ => []
  | f + 1, s =>
      match reSearch toks s with
      | none => []
      | some (i, n, _) =>
          (s.drop i).take n :: gMatchesAux toks f (s.drop (i + max n 1))

def gMatches (toks : List RTok) (s : List Char) : List (List Char) :=
  gMatchesAux toks (s.length + 1) s

/-- `String.prototype.match` without `g`: `match[1]`, the capture group. -/
def matchCap1 (toks : List RTok) (s : List Char) : Option (List Char) :=
  match reSearch toks s with
  | some (_, _, cap) => cap
  | none => none

/-- `String.prototype.match` with `g`: `match[1]` is the SECOND full-match
text (capture groups are not returned in global mode). -/
def gMatchIdx1 (toks : List RTok) (s : List Char) : Option (List Char) :=
  (gMatches toks s).get? 1

/-- Is there any match at all (`output.match(p)` truthiness)? -/
def hasMatch (toks : List RTok) (s : List Char) : Bool :=
  (reSearch toks s).isSome

/-! # OutputParser (terminal output classification)

Embedded from `OutputParser` in the helpers module: `parseServerPort`,
`containsReadyMessage`, `containsError`.  Each JavaScript regex is rendered as
a token list; patterns carrying the `g` flag are marked, since
`String.prototype.match` returns full-match texts (and no capture groups) in
global mode, so that `match[1]` is then the second full match. -/

/-- A pattern as used via `output.match(pattern)`: token list plus `g` flag. -/
structure SPattern where
  toks : List RTok
  globalFlag : Bool
deriving Repr

/-- The ordered pattern list of `parseServerPort`. -/
def serverPatterns : List SPattern := [
  -- /Local:\s*http:\/\/localhost:(\d+)/i
  ⟨[.lit "local:".toList true, .star .ws, .lit "http://localhost:".toList true,
    .digitsCap], false⟩,
  -- /🚀.*Local:\s*http:\/\/localhost:(\d+)/i
  ⟨[.lit [Char.ofNat 128640] true, .star .dot, .lit "local:".toList true, .star .ws,
    .lit "http://localhost:".toList true, .digitsCap], false⟩,
  -- /astro.*dev.*localhost:(\d+)/i
  ⟨[.lit "astro".toList true, .star .dot, .lit "dev".toList true, .star .dot,
    .lit "localhost:".toList true, .digitsCap], false⟩,
  -- /dev server.*localhost:(\d+)/i
  ⟨[.lit "dev server".toList true, .star .dot, .lit "localhost:".toList true,
    .digitsCap], false⟩,
  -- /localhost:(\d+)(?!\d)/g
  ⟨[.lit "localhost:".toList false, .digitsCap, .nlaDigit], true⟩,
  -- /http:\/\/localhost:(\d+)/g
  ⟨[.lit "http://localhost:".toList false, .digitsCap], true⟩,
  -- /listening.*port[:\s]+(\d+)/i
  ⟨[.lit "listening".toList true, .star .dot, .lit "port".toList true,
    .plus1 .colonWs, .digitsCap], false⟩,
  -- /server.*port[:\s]+(\d+)/i
  ⟨[.lit "server".toList true, .star .dot, .lit "port".toList true,
    .plus1 .colonWs, .digitsCap], false⟩,
  -- /running.*port[:\s]+(\d+)/i
  ⟨[.lit "running".toList true, .star .dot, .lit "port".toList true,
    .plus1 .colonWs, .digitsCap], false⟩,
  -- /astro.*ready.*(\d+)/i
  ⟨[.lit "astro".toList true, .star .dot, .lit "ready".toList true, .star .dot,
    .digitsCap], false⟩,
  -- /next.*ready.*(\d+)/i
  ⟨[.lit "next".toList true, .star .dot, .lit "ready".toList true, .star .dot,
    .digitsCap], false⟩,
  -- /vite.*ready.*(\d+)/i
  ⟨[.lit "vite".toList true, .star .dot, .lit "ready".toList true, .star .dot,
    .digitsCap], false⟩,
  -- /(4321|3000|3001|5173|8080|8000)/g
  ⟨[.altCap ["4321".toList, "3000".toList, "3001".toList, "5173".toList,
    "8080".toList, "8000".toList]], true⟩]

/-- `match[1]` for one pattern: capture group without `g`, second full-match
text with `g`. -/
def patternIdx1 (p : SPattern) (s : List Char) : Option (List Char) :=
  if p.globalFlag then gMatchIdx1 p.toks s else matchCap1 p.toks s

/-- One loop iteration of `parseServerPort`: `match && match[1]`, then
`parseInt`, then the `3000 <= port <= 9999` range test. -/
def patternPort (p : SPattern) (s : List Char) : Option Nat :=
  match patternIdx1 p s with
  | none => none
  | some cap =>
      if cap.isEmpty then none  -- empty string is falsy in `match[1]`
      else
        match jsParseInt cap with
        | none => none  -- NaN fails the range comparison
        | some port => if 3000 ≤ port ∧ port ≤ 9999 then some port.toNat else none

/-- `OutputParser.parseServerPort`: first pattern (in list order) producing an
in-range port wins; otherwise `null`. -/
def parseServerPort (output : String) : Option Nat :=
  serverPatterns.findSome? (fun p => patternPort p output.toList)

/-- The fixed `readyMessages` pattern list of `containsReadyMessage`. -/
def readyMessages : List (List RTok) := [
  -- /ready in \d+ms/i
  [.lit "ready in ".toList true, .digitsCap, .lit "ms".toList true],
  -- /compiled successfully/i
  [.lit "compiled successfully".toList true],
  -- /development server is ready/i
  [.lit "development server is ready".toList true],
  -- /build complete/i
  [.lit "build complete".toList true],
  -- /astro.*ready/i
  [.lit "astro".toList true, .star .dot, .lit "ready".toList true],
  -- /next.*ready/i
  [.lit "next".toList true, .star .dot, .lit "ready".toList true],
  -- /vite.*ready/i
  [.lit "vite".toList true, .star .dot, .lit "ready".toList true],
  -- /server.*running/i
  [.lit "server".toList true, .star .dot, .lit "running".toList true]]

/-- `OutputParser.containsReadyMessage`. -/
def containsReadyMessage (output : String) : Bool :=
  readyMessages.any (fun p => hasMatch p output.toList)

/-- The fixed `errorPatterns` list of `containsError`. -/
def errorPatterns : List (List RTok) := [
  [.lit "error:".toList true],
  [.lit "failed".toList true],
  [.lit "exception".toList true],
  [.lit "cannot find module".toList true],
  [.lit "syntax error".toList true],
  [.lit "command not found".toList true]]

/-- `OutputParser.containsError`. -/
def containsError (output : String) : Bool :=
  errorPatterns.any (fun p => hasMatch p output.toList)

/-- Errors a JavaScript call can surface in the embedded fragments. -/
inductive JsError where
  | typeError
  | invalidUrl
  | invalidPath (p : String)
deriving Repr, DecidableEq

/-- `OutputParser.parseServerPort` on a JavaScript value that is either a
string or a non-string (`none`): the body immediately calls `output.match`,
which throws a TypeError when `output` is not a string. -/
def jsParseServerPort : Option String → Except JsError (Option Nat)
  | none => .error .typeError
  | some s => .ok (parseServerPort s)

/-- `OutputParser.containsReadyMessage` with the same dynamic-input contract. -/
def jsContainsReadyMessage : Option String → Except JsError Bool
  | none => .error .typeError
  | some s => .ok (containsReadyMessage s)

/-- `OutputParser.containsError` with the same dynamic-input contract. -/
def jsContainsError : Option String → Except JsError Bool
  | none => .error .typeError
  | some s => .ok (containsError s)

/-! # FileSystemHelper.sanitizeFilename

`filename.replace(/[^a-z0-9.-]/gi, '_').replace(/_+/g, '_').replace(/^_|_$/g, '')` -/

/-- One character of the first replace: anything outside `[a-zA-Z0-9.-]`
becomes an underscore. -/
def sanChar (c : Char) : Char :=
  if ('a' ≤ c ∧ c ≤ 'z') ∨ ('A' ≤ c ∧ c ≤ 'Z') ∨ ('0' ≤ c ∧ c ≤ '9') ∨
     c = '.' ∨ c = '-'
  then c else '_'

/-- `.replace(/[^a-z0-9.-]/gi, '_')`. -/
def replaceBad (l : List Char) : List Char := l.map sanChar

/-- Tail worker for run collapsing: drop an underscore whose predecessor in
the output is an underscore (i.e. keep one `_` per maximal run). -/
def collapseGo : Char → List Char → List Char
  | _, [] => []
  | p, c :: rest =>
      if p = '_' ∧ c = '_' then collapseGo p rest else c :: collapseGo c rest

/-- `.replace(/_+/g, '_')`: each maximal run of underscores becomes one. -/
def collapseUnderscores : List Char → List Char
  | [] => []
  | c :: rest => c :: collapseGo c rest

/-- The `^_` half of `.replace(/^_|_$/g, '')`: one leading underscore. -/
def stripLead : List Char → List Char
  | [] => []
  | c :: t => if c = '_' then t else c :: t

/-- The `_$` half of `.replace(/^_|_$/g, '')`: one trailing underscore (on
the remainder, exactly as the global replace consumes non-overlapping
matches). -/
def stripTrail : List Char → List Char
  | [] => []
  | [c] => if c = '_' then [] else [c]
  | c :: d :: rest => c :: stripTrail (d :: rest)

/-- `FileSystemHelper.sanitizeFilename`. -/
def sanitizeFilename (s : String) : String :=
  String.mk (stripTrail (stripLead (collapseUnderscores (replaceBad s.toList))))

/-- No two adjacent underscores. -/
def noDouble : List Char → Prop
  | [] => True
  | [_] => True
  | c :: d :: rest => ¬(c = '_' ∧ d = '_') ∧ noDouble (d :: rest)

/-! # TerminalHelper.isSafeCommand and TerminalManager.writeToShell -/

/-- The fixed block list of `TerminalHelper.isSafeCommand`. -/
def dangerousCommands : List String :=
  ["rm -rf /", "sudo rm", "mkfs", "dd if=", "format", "del /s", "rmdir /s",
   ":()\x7b :|:& \x7d;:"]  -- fork bomb

/-- `TerminalHelper.isSafeCommand`: no dangerous substring occurs in the
lower-cased command. -/
def isSafeCommand (command : String) : Bool :=
  ! dangerousCommands.any (fun dangerous =>
      strContains (jsToLower command) (jsToLower dangerous))

/-- The writer half of the shell process stream, as seen by
`writeToShell`: `desiredSize` is `null` (`none`) when the stream is closed. -/
structure ShellWriter where
  desiredSize : Option Int
deriving Repr, DecidableEq

/-- The `TerminalManager` state touched by `writeToShell`. -/
structure TermState where
  shellWriter : Option ShellWriter
  hasShellProcess : Bool
deriving Repr, DecidableEq

/-- `TerminalManager.writeToShell`: returns the success flag and the list of
chunks forwarded to the shell input stream (UI-only messages are elided).
An unsafe command is rejected before any write; a missing or closed writer
yields `false` (the reconnect branch requires `shellProcess && !shellWriter`
while `shellWriter` is set, so it cannot fire). -/
def writeToShell (st : TermState) (command : String) : Bool × List String :=
  if ! isSafeCommand command then
    (false, [])
  else
    match st.shellWriter with
    | some w =>
        if w.desiredSize ≠ none then (true, [command])
        else
          -- `this.shellProcess && !this.shellWriter` is false here
          if st.hasShellProcess ∧ False then (true, [command]) else (false, [])
    | none => (false, [])

/-! # PreviewStateHelper (persisted preview state, 24h recency check) -/

/-- A parsed stored state: the timestamp written by `saveState` (absent when
the stored JSON had no numeric `timestamp` field) plus the remaining payload. -/
structure StoredState where
  timestamp : Option Int
  payload : List (String × String)
deriving Repr, DecidableEq

/-- The browser surface consumed by `PreviewStateHelper`: `localStorage` and
`JSON.parse`, plus the current clock. -/
structure StorageEnv where
  getItem : String → Option String
  parse : String → Option StoredState  -- `none` models a JSON.parse throw
  now : Int

/-- `PreviewStateHelper.loadState`: read `preview_<key>`, parse, and apply the
24-hour recency check; every failure path degrades to `null`. -/
def loadState (env : StorageEnv) (key : String) : Option StoredState :=
  match env.getItem ("preview_" ++ key) with
  | none => none
  | some saved =>
      match env.parse saved with
      | none => none  -- JSON.parse threw; caught, fall through to null
      | some state =>
          match state.timestamp with
          | some ts =>
              if env.now - ts < 24 * 60 * 60 * 1000 then some state else none
          | none => none  -- NaN comparison is false

/-- `PreviewStateHelper.saveState` (timestamp attached to the payload). -/
def saveState (env : StorageEnv) (state : List (String × String)) :
    StoredState :=
  { timestamp := some env.now, payload := state }

/-! # GitHub URL utilities (`src/utils/github.js`) -/

/-- The owner/repo pair extracted from a GitHub URL. -/
structure RepoRef where
  owner : String
  repo : String
deriving Repr, DecidableEq

/-- Maximal run matched by a greedy `[^\/]+`. -/
def nonSlashRun (l : List Char) : List Char := l.takeWhile (fun c => c ≠ '/')

/-- Match `([^\/]+)\/([^\/]+)` at the start of `l` (both runs greedy; the `/`
literal after the first group forces the maximal run). -/
def matchOwnerRepo (l : List Char) : Option (List Char × List Char) :=
  let s1 := nonSlashRun l
  if s1.isEmpty then none
  else
    match l.drop s1.length with
    | '/' :: rest2 =>
        let s2 := nonSlashRun rest2
        if s2.isEmpty then none else some (s1, s2)
    | _ => none

/-- Backtracking for `([^\/]+)\.git`: the longest non-empty non-slash prefix
immediately followed by the literal `.git`. `k` counts candidates downwards. -/
def findGitSplit (run : List Char) : Nat → Option (List Char)
  | 0 => none
  | k + 1 =>
      if ".git".toList.isPrefixOf (run.drop (k + 1)) then some (run.take (k + 1))
      else findGitSplit run k

/-- Match `([^\/]+)\/([^\/]+)\.git` at the start of `l`. -/
def matchOwnerRepoGit (l : List Char) : Option (List Char × List Char) :=
  let s1 := nonSlashRun l
  if s1.isEmpty then none
  else
    match l.drop s1.length with
    | '/' :: rest2 =>
        let run := nonSlashRun rest2
        match findGitSplit run run.length with
        | some s2 => some (s1, s2)
        | none => none
    | _ => none

/-- Leftmost scan for a literal prefix followed by a continuation matcher. -/
def scanLit (lit : List Char) (k : List Char → Option (List Char × List Char)) :
    List Char → Option (List Char × List Char)
  | [] => none
  | c :: t =>
      if lit.isPrefixOf (c :: t) then
        match k ((c :: t).drop lit.length) with
        | some r => some r
        | none => scanLit lit k t
      else scanLit lit k t

/-- `.replace(/\.git$/, '')`. -/
def stripDotGit (r : List Char) : List Char :=
  if ".git".toList.isSuffixOf r then r.take (r.length - 4) else r

/-- `parseGitHubUrl`: the three URL patterns tried in order
(`github.com/o/r`, `github.com/o/r.git`, `git@github.com:o/r.git`), with the
`.git` suffix stripped from the repo group. -/
def parseGitHubUrl (url : String) : Option RepoRef :=
  if url = "" then none
  else
    let l := url.toList
    match scanLit "github.com/".toList matchOwnerRepo l with
    | some (o, r) => some ⟨String.mk o, String.mk (stripDotGit r)⟩
    | none =>
        match scanLit "github.com/".toList matchOwnerRepoGit l with
        | some (o, r) => some ⟨String.mk o, String.mk (stripDotGit r)⟩
        | none =>
            match scanLit "git@github.com:".toList matchOwnerRepoGit l with
            | some (o, r) => some ⟨String.mk o, String.mk (stripDotGit r)⟩
            | none => none

/-- `generateGitHubRawUrls`: raw-content URLs for branches `main`, `master`. -/
def generateGitHubRawUrls (owner repo filepath : String) : List String :=
  ["main", "master"].map (fun branch =>
    "https://raw.githubusercontent.com/" ++ owner ++ "/" ++ repo ++ "/" ++
      branch ++ "/" ++ filepath)

/-- `generateGitHubApiUrl`. -/
def generateGitHubApiUrl (owner repo : String) : String :=
  "https://api.github.com/repos/" ++ owner ++ "/" ++ repo

/-- Upper-case hex digit. -/
def hexDigitU (n : Nat) : Char :=
  if n < 10 then Char.ofNat (48 + n) else Char.ofNat (55 + n)

/-- UTF-8 bytes of a character (for percent-encoding). -/
def utf8BytesOf (c : Char) : List Nat :=
  let n := c.toNat
  if n < 0x80 then [n]
  else if n < 0x800 then [0xC0 + n / 64, 0x80 + n % 64]
  else if n < 0x10000 then
    [0xE0 + n / 4096, 0x80 + (n / 64) % 64, 0x80 + n % 64]
  else
    [0xF0 + n / 262144, 0x80 + (n / 4096) % 64, 0x80 + (n / 64) % 64,
     0x80 + n % 64]

/-- `encodeURIComponent`: unreserved characters kept, everything else
percent-encoded per UTF-8 byte. -/
def encodeURIComponent (s : String) : String :=
  String.mk ((s.toList.map (fun c =>
    if ('A' ≤ c ∧ c ≤ 'Z') ∨ ('a' ≤ c ∧ c ≤ 'z') ∨ ('0' ≤ c ∧ c ≤ '9') ∨
       c = '-' ∨ c = '_' ∨ c = '.' ∨ c = '!' ∨ c = '~' ∨ c = '*' ∨
       c = '\x27' ∨ c = '(' ∨ c = ')'
    then [c]
    else ((utf8BytesOf c).map (fun b => ['%', hexDigitU (b / 16), hexDigitU (b % 16)])).flatten)).flatten)

/-- `generateCorsProxyUrls`: the fixed passthrough proxy list. -/
def generateCorsProxyUrls (apiUrl : String) : List String :=
  ["https://api.allorigins.win/get?url=", "https://cors-anywhere.herokuapp.com/",
   "https://corsproxy.io/?"].map (fun proxy => proxy ++ encodeURIComponent apiUrl)

/-! # GitHub API data model and network environment -/

/-- Repository metadata, with `Option` on fields whose JavaScript truthiness
the code tests (`description`, `language`, `topics`, `license.spdx_id`). -/
structure RepoData where
  name : String
  full_name : String
  description : Option String
  owner_login : String
  html_url : String
  language : Option String
  stargazers_count : Nat
  forks_count : Nat
  topics : Option (List String)
  license_spdx : Option String
  default_branch : String
deriving Repr, DecidableEq

/-- A remote `package.json` viewed as a JavaScript object: `some` marks a
property that is present (and therefore copied by object spread). -/
structure PartialPkg where
  name : Option String := none
  version : Option String := none
  description : Option String := none
  main : Option String := none
  scripts : Option (List (String × String)) := none
  keywords : Option (List String) := none
  author : Option String := none
  license : Option String := none
  repository_url : Option String := none
  homepage : Option String := none
  dependencies : Option (List (String × String)) := none
  devDependencies : Option (List (String × String)) := none
deriving Repr, DecidableEq

/-- The result of a successful `JSON.parse`, exposing exactly the projections
the embedded code reads: repository-metadata fields, a `content` field
(contents API), a `contents` field (CORS-proxy wrapper), and a package view. -/
structure JVal where
  repo : RepoData
  content : Option String := none
  contents : Option String := none
  pkg : PartialPkg := {}
deriving Repr, DecidableEq

/-- The browser network surface consumed by the importer: `fetch` (`none`
models a network error or a non-ok response, `some body` an ok response text),
`JSON.parse` (`none` models a throw) and `atob` (`none` models a throw). -/
structure NetEnv where
  fetch : String → Option String
  jsonParse : String → Option JVal
  atob : String → Option String

/-- Truthiness of an optional string field. -/
def truthyStr : Option String → Bool
  | some s => s ≠ ""
  | none => false

/-- `GitHubApiHelper.createFallbackRepoData`. -/
def createFallbackRepoData (owner repo : String) : RepoData :=
  { name := repo,
    full_name := owner ++ "/" ++ repo,
    description := some ("Repository " ++ owner ++ "/" ++ repo),
    owner_login := owner,
    html_url := "https://github.com/" ++ owner ++ "/" ++ repo,
    language := some "JavaScript",
    stargazers_count := 0,
    forks_count := 0,
    topics := some [],
    license_spdx := none,
    default_branch := "main" }

/-- The attempt list of `fetchRepositoryInfo`: the direct API URL, then the
CORS proxies (each flagged `isProxy`). -/
def infoAttempts (owner repo : String) : List (String × Bool) :=
  (generateGitHubApiUrl owner repo, false) ::
    (generateCorsProxyUrls (generateGitHubApiUrl owner repo)).map (fun u => (u, true))

/-- The attempt loop of `GitHubApiHelper.fetchRepositoryInfo`: per attempt,
fetch; parse the body (`response.json()`); unwrap `data.contents` for proxies
(a second `JSON.parse`, whose throw is caught and skips the attempt); accept
only a result with a truthy `name`.  Returns the found metadata (if any) and
the trace of URLs fetched. -/
def fetchInfoGo (env : NetEnv) : List (String × Bool) → Option RepoData × List String
  | [] => (none, [])
  | (url, isProxy) :: rest =>
      match env.fetch url with
      | none =>
          let (r, tr) := fetchInfoGo env rest
          (r, url :: tr)
      | some text =>
          match env.jsonParse text with
          | none =>
              let (r, tr) := fetchInfoGo env rest
              (r, url :: tr)
          | some data =>
              let repoData? : Option JVal :=
                if isProxy ∧ truthyStr data.contents then
                  env.jsonParse (data.contents.getD "")
                else some data
              match repoData? with
              | none =>
                  let (r, tr) := fetchInfoGo env rest
                  (r, url :: tr)
              | some rd =>
                  if rd.repo.name ≠ "" then (some rd.repo, [url])
                  else
                    let (r, tr) := fetchInfoGo env rest
                    (r, url :: tr)

/-- `GitHubApiHelper.fetchRepositoryInfo`: first accepted attempt wins; if all
attempts fail, substitute `createFallbackRepoData`. -/
def fetchRepositoryInfo (env : NetEnv) (owner repo : String) :
    RepoData × List String :=
  match fetchInfoGo env (infoAttempts owner repo) with
  | (some rd, tr) => (rd, tr)
  | (none, tr) => (createFallbackRepoData owner repo, tr)

/-- The attempt list of `fetchFileContent`: raw URLs then the contents API. -/
def fileAttempts (owner repo filepath : String) : List String :=
  generateGitHubRawUrls owner repo filepath ++
    ["https://api.github.com/repos/" ++ owner ++ "/" ++ repo ++ "/contents/" ++
      filepath]

/-- The attempt loop of `GitHubApiHelper.fetchFileContent`.  A response from a
URL containing `api.github.com` is JSON-sniffed: parse failure returns the raw
body (the catch clause), a truthy `content` field is base64-decoded (an `atob`
throw is also caught, returning the raw body), and a JSON body without a
truthy `content` falls through to the next attempt. -/
def fetchFileGo (env : NetEnv) : List String → Option String × List String
  | [] => (none, [])
  | url :: rest =>
      match env.fetch url with
      | none =>
          let (r, tr) := fetchFileGo env rest
          (r, url :: tr)
      | some data =>
          if strContains url "api.github.com" then
            match env.jsonParse data with
            | none => (some data, [url])
            | some jsonData =>
                match jsonData.content with
                | some c =>
                    if c ≠ "" then
                      match env.atob c with
                      | some decoded => (some decoded, [url])
                      | none => (some data, [url])
                    else
                      let (r, tr) := fetchFileGo env rest
                      (r, url :: tr)
                | none =>
                    let (r, tr) := fetchFileGo env rest
                    (r, url :: tr)
          else (some data, [url])

/-- `GitHubApiHelper.fetchFileContent`. -/
def fetchFileContent (env : NetEnv) (owner repo filepath : String) :
    Option String × List String :=
  fetchFileGo env (fileAttempts owner repo filepath)

/-- The fetch order stated by the specification, for comparison with
`fetchFileContent`: raw-content on `main`, raw-content on `master`, then the
contents API with its base64 `content` field decoded; first success wins and
total failure yields `null`. -/
def specFetchFileContent (env : NetEnv) (owner repo filepath : String) :
    Option String × List String :=
  let rawMain := "https://raw.githubusercontent.com/" ++ owner ++ "/" ++ repo ++
    "/" ++ "main" ++ "/" ++ filepath
  let rawMaster := "https://raw.githubusercontent.com/" ++ owner ++ "/" ++ repo ++
    "/" ++ "master" ++ "/" ++ filepath
  let api := "https://api.github.com/repos/" ++ owner ++ "/" ++ repo ++
    "/contents/" ++ filepath
  match env.fetch rawMain with
  | some body => (some body, [rawMain])
  | none =>
      match env.fetch rawMaster with
      | some body => (some body, [rawMain, rawMaster])
      | none =>
          match env.fetch api with
          | none => (none, [rawMain, rawMaster, api])
          | some body =>
              (((env.jsonParse body).bind (fun j => j.content)).bind env.atob,
               [rawMain, rawMaster, api])

/-! # ProjectTypeHelper (type detection and per-type configuration) -/

/-- JavaScript object spread `{...b, ...e}` on string-valued records encoded
as association lists: keys of `b` in order (values overridden by `e` on
collision), then the new keys of `e` in order. -/
def objMerge (b e : List (String × String)) : List (String × String) :=
  b.map (fun kv => (kv.1, (e.lookup kv.1).getD kv.2)) ++
    e.filter (fun kv => (b.lookup kv.1).isNone)

/-- Truthiness of `deps[k]` for a dependency map. -/
def truthyLookup (deps : List (String × String)) (k : String) : Bool :=
  match deps.lookup k with
  | some v => v ≠ ""
  | none => false

/-- Per-type project configuration (`ProjectTypeHelper.getProjectConfig`). -/
structure ProjectConfig where
  defaultPort : Nat
  devCommand : String
  buildCommand : String
  startCommand : String
  directories : List String
  mainFiles : List String
  configFiles : List String
  dependencies : List (String × String)
  scripts : List (String × String)
deriving Repr, DecidableEq

def astroConfig : ProjectConfig :=
  { defaultPort := 4321, devCommand := "npm run dev",
    buildCommand := "npm run build", startCommand := "npm start",
    directories := ["src", "src/pages", "src/components", "src/layouts", "public"],
    mainFiles := ["src/pages/index.astro"],
    configFiles := ["astro.config.mjs"],
    dependencies := [("astro", "^4.0.0")],
    scripts := [("dev", "astro dev"), ("start", "astro dev"),
      ("build", "astro build"), ("preview", "astro preview")] }

def nextConfig : ProjectConfig :=
  { defaultPort := 3000, devCommand := "npm run dev",
    buildCommand := "npm run build", startCommand := "npm start",
    directories := ["pages", "components", "public", "styles"],
    mainFiles := ["pages/index.js", "pages/index.tsx"],
    configFiles := ["next.config.js"],
    dependencies := [("next", "^14.0.0"), ("react", "^18.0.0"),
      ("react-dom", "^18.0.0")],
    scripts := [("dev", "next dev"), ("build", "next build"),
      ("start", "next start")] }

def reactConfig : ProjectConfig :=
  { defaultPort := 3000, devCommand := "npm start",
    buildCommand := "npm run build", startCommand := "npm start",
    directories := ["src", "public"],
    mainFiles := ["src/App.js", "src/App.jsx", "src/index.js"],
    configFiles := [],
    dependencies := [("react", "^18.0.0"), ("react-dom", "^18.0.0")],
    scripts := [("start", "react-scripts start"), ("build", "react-scripts build"),
      ("test", "react-scripts test")] }

def vueConfig : ProjectConfig :=
  { defaultPort := 8080, devCommand := "npm run serve",
    buildCommand := "npm run build", startCommand := "npm run serve",
    directories := ["src", "public"],
    mainFiles := ["src/App.vue", "src/main.js"],
    configFiles := ["vue.config.js"],
    dependencies := [("vue", "^3.0.0")],
    scripts := [("serve", "vue-cli-service serve"), ("build", "vue-cli-service build")] }

def viteConfig : ProjectConfig :=
  { defaultPort := 5173, devCommand := "npm run dev",
    buildCommand := "npm run build", startCommand := "npm run dev",
    directories := ["src", "public"],
    mainFiles := ["src/main.js", "src/main.ts", "index.html"],
    configFiles := ["vite.config.js", "vite.config.ts"],
    dependencies := [("vite", "^5.0.0")],
    scripts := [("dev", "vite"), ("build", "vite build"), ("preview", "vite preview")] }

def expressConfig : ProjectConfig :=
  { defaultPort := 3000, devCommand := "npm run dev",
    buildCommand := "npm run build", startCommand := "npm start",
    directories := ["routes", "public", "views"],
    mainFiles := ["app.js", "server.js", "index.js"],
    configFiles := [],
    dependencies := [("express", "^4.18.0")],
    scripts := [("start", "node app.js"), ("dev", "nodemon app.js")] }

def nodeConfig : ProjectConfig :=
  { defaultPort := 3000, devCommand := "npm start",
    buildCommand := "npm run build", startCommand := "npm start",
    directories := ["src", "lib"],
    mainFiles := ["index.js", "app.js", "server.js"],
    configFiles := [],
    dependencies := [],
    scripts := [("start", "node index.js"), ("dev", "node index.js")] }

/-- `ProjectTypeHelper.getProjectConfig`: `configs[projectType] || configs.node`. -/
def getProjectConfig (projectType : String) : ProjectConfig :=
  if projectType = "astro" then astroConfig
  else if projectType = "next" then nextConfig
  else if projectType = "react" then reactConfig
  else if projectType = "vue" then vueConfig
  else if projectType = "vite" then viteConfig
  else if projectType = "express" then expressConfig
  else if projectType = "node" then nodeConfig
  else nodeConfig

/-- `ProjectTypeHelper.detectProjectType` (package.json dependency signature
checks, then config file names, then the `src/pages` directory heuristic). -/
def detectProjectType (packageJson : Option PartialPkg) (files : List String) :
    String :=
  let depHit : Option String :=
    match packageJson with
    | some p =>
        let deps := objMerge (p.dependencies.getD []) (p.devDependencies.getD [])
        if truthyLookup deps "astro" then some "astro"
        else if truthyLookup deps "next" then some "next"
        else if truthyLookup deps "nuxt" then some "nuxt"
        else if truthyLookup deps "react" ∧ truthyLookup deps "react-scripts" then
          some "create-react-app"
        else if truthyLookup deps "react" then some "react"
        else if truthyLookup deps "vue" then some "vue"
        else if truthyLookup deps "angular" then some "angular"
        else if truthyLookup deps "svelte" then some "svelte"
        else if truthyLookup deps "express" then some "express"
        else if truthyLookup deps "fastify" then some "fastify"
        else if truthyLookup deps "koa" then some "koa"
        else if truthyLookup deps "vite" then some "vite"
        else none
    | none => none
  match depHit with
  | some t => t
  | none =>
      let configFiles := files.map jsToLower
      if configFiles.contains "astro.config.mjs" ∨ configFiles.contains "astro.config.js" then
        "astro"
      else if configFiles.contains "next.config.js" ∨ configFiles.contains "next.config.mjs" then
        "next"
      else if configFiles.contains "nuxt.config.js" ∨ configFiles.contains "nuxt.config.ts" then
        "nuxt"
      else if configFiles.contains "vue.config.js" then "vue"
      else if configFiles.contains "angular.json" then "angular"
      else if configFiles.contains "svelte.config.js" then "svelte"
      else if configFiles.contains "vite.config.js" ∨ configFiles.contains "vite.config.ts" then
        "vite"
      else if files.any (fun f => strContains (jsToLower f) "src/pages") then "astro"
      else "node"

/-! # FileTemplateHelper and Astro file templates

String interpolation of a possibly-absent field renders `undefined`, as
JavaScript template literals do.  In every call site below `repoData` is an
object (never `null`), so the `repoData ? ... : ...` conditionals take their
first branch. -/

def jsShowOpt : Option String → String
  | some s => s
  | none => "undefined"

/-- `FileTemplateHelper.generateReadme`. -/
def generateReadme (projectName owner : String) (repoData : RepoData)
    (projectType : String) : String :=
  let config := getProjectConfig projectType
  let isAstroProject := projectType = "astro"
  "# " ++ projectName ++
  "\n\nThis project was loaded from GitHub repository: " ++ owner ++ "/" ++ projectName ++
  "\n\n" ++ jsShowOpt repoData.description ++
  "\n\n## Original Repository\n- **URL**: https://github.com/" ++ owner ++ "/" ++ projectName ++
  "\n- **Owner**: " ++ owner ++
  "\n" ++ ("- **Language**: " ++ jsShowOpt repoData.language) ++
  "\n" ++ ("- **Stars**: " ++ toString repoData.stargazers_count) ++
  "\n" ++ ("- **Forks**: " ++ toString repoData.forks_count) ++
  "\n\n## Getting Started\n\n1. Install dependencies:\n   ```bash\n   npm install\n   ```\n\n" ++
  "2. Run the project:\n   ```bash\n   " ++ config.devCommand ++ "\n   ```\n\n" ++
  (if isAstroProject then
    "## Astro Project\n\nThis is an Astro project. Astro is a modern static site generator.\n\n" ++
    "- **Development**: `" ++ jsShowOpt (config.scripts.lookup "dev") ++ "`\n" ++
    "- **Build**: `" ++ jsShowOpt (config.scripts.lookup "build") ++ "`\n" ++
    "- **Preview**: `" ++
      (if truthyStr (config.scripts.lookup "preview") then
        jsShowOpt (config.scripts.lookup "preview")
      else "npm run preview") ++ "`\n\n" ++
    "Visit [Astro Documentation](https://docs.astro.build) for more information.\n"
  else "") ++
  "\n\n## Note\n\nThis is a reconstructed version of the original repository loaded into Browser Node Terminal.\n" ++
  "Some files may be missing or simplified. \n\n" ++
  "Visit the original repository for the complete source code:\nhttps://github.com/" ++
  owner ++ "/" ++ projectName ++ "\n\nHappy coding! 🚀\n"

/-- `FileTemplateHelper.generateFallbackIndexJs`. -/
def generateFallbackIndexJs (projectName owner : String) (repoData : RepoData) :
    String :=
  "// " ++ projectName ++ " - Loaded from GitHub\n" ++
  "// Original repository: https://github.com/" ++ owner ++ "/" ++ projectName ++ "\n" ++
  ("// Description: " ++ jsShowOpt repoData.description) ++
  "\n\nconsole.log(\x27🚀 Welcome to " ++ projectName ++ "!\x27);\n" ++
  "console.log(\x27This project was loaded from GitHub into Browser Node Terminal.\x27);\n" ++
  "console.log(\x27\x27);\n" ++
  "console.log(\x27Original repository: https://github.com/" ++ owner ++ "/" ++ projectName ++ "\x27);\n" ++
  ("console.log(\x27Description: " ++ jsShowOpt repoData.description ++ "\x27);") ++
  "\n\n// Basic HTTP server example\nconst http = require(\x27http\x27);\n\n" ++
  "const server = http.createServer((req, res) => \x7b\n" ++
  "    res.writeHead(200, \x7b \x27Content-Type\x27: \x27text/html\x27 \x7d);\n" ++
  "    res.end(`\n        <!DOCTYPE html>\n        <html>\n        <head>\n" ++
  "            <title>" ++ projectName ++ "</title>\n            <style>\n" ++
  "                body \x7b \n                    font-family: Arial, sans-serif; \n" ++
  "                    max-width: 800px; \n                    margin: 40px auto; \n" ++
  "                    padding: 20px;\n                    line-height: 1.6;\n" ++
  "                \x7d\n                h1 \x7b color: #4CAF50; \x7d\n" ++
  "                .info \x7b \n                    background: #f5f5f5; \n" ++
  "                    padding: 20px; \n                    border-radius: 8px;\n" ++
  "                    margin: 20px 0;\n                \x7d\n" ++
  "                a \x7b color: #4CAF50; \x7d\n            </style>\n        </head>\n" ++
  "        <body>\n            <h1>🚀 " ++ projectName ++ "</h1>\n" ++
  "            <div class=\"info\">\n" ++
  "                <p><strong>Status:</strong> Running in Browser Node Terminal!</p>\n" ++
  "                <p><strong>Original Repository:</strong> \n" ++
  "                   <a href=\"https://github.com/" ++ owner ++ "/" ++ projectName ++ "\" target=\"_blank\">\n" ++
  "                       https://github.com/" ++ owner ++ "/" ++ projectName ++ "\n" ++
  "                   </a>\n                </p>\n" ++
  "                " ++ ("<p><strong>Description:</strong> " ++ jsShowOpt repoData.description ++ "</p>") ++ "\n" ++
  "                " ++ ("<p><strong>Language:</strong> " ++ jsShowOpt repoData.language ++ "</p>") ++ "\n" ++
  "            </div>\n            \n            <h2>Next Steps</h2>\n            <ul>\n" ++
  "                <li>Install dependencies with <code>npm install</code></li>\n" ++
  "                <li>Check the original repository for specific setup instructions</li>\n" ++
  "                <li>Modify this code to match the original project structure</li>\n" ++
  "                <li>Add the actual project files from the GitHub repository</li>\n" ++
  "            </ul>\n            \n" ++
  "            <p>This is a basic starter template. Visit the original repository to see the complete source code.</p>\n" ++
  "        </body>\n        </html>\n    `);\n\x7d);\n\n" ++
  "const port = process.env.PORT || 3000;\n" ++
  "server.listen(port, () => \x7b\n" ++
  "    console.log(`🌐 Server running at http://localhost:$\x7bport\x7d`);\n" ++
  "    console.log(\x27📁 Project directory: /" ++ projectName ++ "\x27);\n" ++
  "    console.log(\x27🔗 Original repo: https://github.com/" ++ owner ++ "/" ++ projectName ++ "\x27);\n" ++
  "\x7d);\n"

/-- `FileTemplateHelper.generateAstroIndexPage`. -/
def generateAstroIndexPage (projectName owner : String) (repoData : RepoData) :
    String :=
  "---\n// " ++ projectName ++ " - Loaded from GitHub\n" ++
  "// Original repository: https://github.com/" ++ owner ++ "/" ++ projectName ++ "\n" ++
  "const title = \x27" ++ projectName ++ "\x27;\n" ++
  "const description = \x27" ++ jsShowOpt repoData.description ++ "\x27;\n---\n\n" ++
  "<html lang=\"en\">\n    <head>\n        <meta charset=\"utf-8\" />\n" ++
  "        <link rel=\"icon\" type=\"image/svg+xml\" href=\"/favicon.svg\" />\n" ++
  "        <meta name=\"viewport\" content=\"width=device-width\" />\n" ++
  "        <meta name=\"generator\" content=\x7bAstro.generator\x7d />\n" ++
  "        <title>\x7btitle\x7d</title>\n" ++
  "        <meta name=\"description\" content=\x7bdescription\x7d />\n" ++
  "    </head>\n    <body>\n        <main>\n" ++
  "            <h1>🚀 \x7btitle\x7d</h1>\n" ++
  "            <p class=\"description\">\x7bdescription\x7d</p>\n            \n" ++
  "            <div class=\"info\">\n" ++
  "                <p><strong>Status:</strong> Running in Browser Node Terminal!</p>\n" ++
  "                <p><strong>Original Repository:</strong> \n" ++
  "                   <a href=\x7b`https://github.com/" ++ owner ++ "/" ++ projectName ++ "`\x7d target=\"_blank\">\n" ++
  "                       https://github.com/" ++ owner ++ "/" ++ projectName ++ "\n" ++
  "                   </a>\n                </p>\n" ++
  "                " ++ ("<p><strong>Language:</strong> " ++ jsShowOpt repoData.language ++ "</p>") ++ "\n" ++
  "            </div>\n\n            <div class=\"next-steps\">\n" ++
  "                <h2>Next Steps</h2>\n                <ul>\n" ++
  "                    <li>Install dependencies with <code>npm install</code></li>\n" ++
  "                    <li>Start development server with <code>npm run dev</code></li>\n" ++
  "                    <li>Check the original repository for specific setup instructions</li>\n" ++
  "                    <li>Add the actual project files from the GitHub repository</li>\n" ++
  "                </ul>\n            </div>\n        </main>\n\n        <style>\n" ++
  "            body \x7b\n                font-family: system-ui, sans-serif;\n" ++
  "                max-width: 800px;\n                margin: 40px auto;\n" ++
  "                padding: 20px;\n                line-height: 1.6;\n" ++
  "                color: #333;\n            \x7d\n            \n" ++
  "            h1 \x7b\n                color: #ff6600;\n" ++
  "                border-bottom: 2px solid #ff6600;\n" ++
  "                padding-bottom: 0.5rem;\n            \x7d\n            \n" ++
  "            .description \x7b\n                font-size: 1.1rem;\n" ++
  "                color: #666;\n                margin-bottom: 2rem;\n            \x7d\n            \n" ++
  "            .info \x7b\n                background: #f0f8ff;\n" ++
  "                border: 1px solid #4a90e2;\n                border-radius: 8px;\n" ++
  "                padding: 1rem;\n                margin: 1rem 0;\n            \x7d\n            \n" ++
  "            .next-steps \x7b\n                background: #f9f9f9;\n" ++
  "                border: 1px solid #ddd;\n                border-radius: 8px;\n" ++
  "                padding: 1rem;\n                margin: 1rem 0;\n            \x7d\n            \n" ++
  "            code \x7b\n                background: #f4f4f4;\n" ++
  "                padding: 0.2rem 0.4rem;\n                border-radius: 4px;\n" ++
  "                font-family: \x27Courier New\x27, monospace;\n            \x7d\n            \n" ++
  "            a \x7b\n                color: #4a90e2;\n" ++
  "                text-decoration: none;\n            \x7d\n            \n" ++
  "            a:hover \x7b\n                text-decoration: underline;\n            \x7d\n" ++
  "        </style>\n    </body>\n</html>\n"

/-- `GitHubRepository.createAstroLayout`. -/
def createAstroLayout : String :=
  "---\nexport interface Props \x7b\n    title: string;\n    description?: string;\n\x7d\n\n" ++
  "const \x7b title, description \x7d = Astro.props;\n---\n\n" ++
  "<!DOCTYPE html>\n<html lang=\"en\">\n    <head>\n        <meta charset=\"UTF-8\" />\n" ++
  "        <meta name=\"description\" content=\x7bdescription || \"Astro project\"\x7d />\n" ++
  "        <meta name=\"viewport\" content=\"width=device-width, initial-scale=1.0\" />\n" ++
  "        <link rel=\"icon\" type=\"image/svg+xml\" href=\"/favicon.svg\" />\n" ++
  "        <meta name=\"generator\" content=\x7bAstro.generator\x7d />\n" ++
  "        <title>\x7btitle\x7d</title>\n    </head>\n    <body>\n        <slot />\n" ++
  "    </body>\n</html>\n"

/-- `GitHubRepository.createAstroConfig`. -/
def createAstroConfig : String :=
  "im" ++ "port \x7b defineConfig \x7d from \x27astro/config\x27;\n\n" ++
  "// https://astro.build/config\nexport default defineConfig(\x7b\n" ++
  "    // Enable server-side rendering if needed\n    // output: \x27server\x27,\n    \n" ++
  "    // Configure integrations\n    integrations: [],\n    \n" ++
  "    // Development server configuration\n    server: \x7b\n        port: 4321,\n" ++
  "        host: true\n    \x7d\n\x7d);\n"

/-! # Virtual filesystem and WebContainerManager path handling

The external WebContainer filesystem is modelled as a path-keyed file map plus
a directory list; `fs.mkdir` with `recursive: true` never reports `EEXIST`,
and the manager is assumed booted (an unbooted manager throws before any of
the behaviour the claims describe). -/

/-- Collapse runs of slashes (`.replace(/\/+/g, '/')`), tail worker. -/
def collapseSlashGo : Char → List Char → List Char
  | _, [] => []
  | p, c :: rest =>
      if p = '/' ∧ c = '/' then collapseSlashGo p rest else c :: collapseSlashGo c rest

def collapseSlashes : List Char → List Char
  | [] => []
  | c :: rest => c :: collapseSlashGo c rest

/-- `WebContainerHelper.normalizePath`: ensure a leading `/`, collapse
duplicate slashes, strip a trailing slash unless the path is the root. -/
def normalizePath (path : String) : String :=
  if path = "" then "/"
  else
    let l := path.toList
    let l := if l.head? = some '/' then l else '/' :: l
    let l := collapseSlashes l
    let l := if 1 < l.length ∧ l.getLast? = some '/' then l.dropLast else l
    String.mk l

/-- `WebContainerHelper.isValidPath`: no `..`, not only slashes, none of the
characters `<>:"|?*`. -/
def isValidPath (path : String) : Bool :=
  let l := path.toList
  ! (listIsInfixOf "..".toList l ||
     (!l.isEmpty && l.all (fun c => c = '/')) ||
     l.any (fun c => c = '<' ∨ c = '>' ∨ c = ':' ∨ c = '"' ∨ c = '|' ∨
       c = '?' ∨ c = '*'))

/-- A generated project manifest (the fields `createEnhancedPackageJson`
produces, with `repository.url` flattened). -/
structure PackageJson where
  name : String
  version : String
  description : String
  main : String
  scripts : List (String × String)
  keywords : List String
  author : String
  license : String
  repository_url : String
  homepage : String
  dependencies : List (String × String)
  devDependencies : List (String × String)
deriving Repr, DecidableEq

/-- Stored file contents: plain text, or a manifest serialized by
`JSON.stringify(finalPackageJson, null, 2)` (kept structured here). -/
inductive FileContent where
  | text (s : String)
  | pkg (p : PackageJson)
deriving Repr, DecidableEq

structure FS where
  files : List (String × FileContent)
  dirs : List String
deriving Repr, DecidableEq

def emptyFS : FS := { files := [], dirs := [] }

def setFile (fs : FS) (path : String) (c : FileContent) : FS :=
  { fs with files := (path, c) :: fs.files.filter (fun kv => kv.1 ≠ path) }

def getFile (fs : FS) (path : String) : Option FileContent :=
  fs.files.lookup path

/-- `WebContainerManager.mkdir` (validation, then the recursive mkdir). -/
def wcMkdir (fs : FS) (dirPath : String) : Except JsError FS :=
  let n := normalizePath dirPath
  if ! isValidPath n then .error (.invalidPath n)
  else .ok { fs with dirs := n :: fs.dirs }

/-- Index after the last `/` in `l` (`lastIndexOf('/')`); normalized paths
always contain one. -/
def lastSlashIdx (l : List Char) : Nat :=
  match l with
  | [] => 0
  | c :: t => if '/' ∈ t then lastSlashIdx t + 1 else (if c = '/' then 0 else 0)

/-- `normalized.substring(0, normalized.lastIndexOf('/'))`. -/
def parentDirOf (n : String) : String :=
  String.mk (n.toList.take (lastSlashIdx n.toList))

/-- `WebContainerManager.writeFile`: validation, parent `mkdir` (whose error
the surrounding catch rethrows), then the write. -/
def wcWriteFile (fs : FS) (filePath : String) (content : FileContent) :
    Except JsError FS :=
  let n := normalizePath filePath
  if ! isValidPath n then .error (.invalidPath n)
  else
    let parent := parentDirOf n
    if parent ≠ "" ∧ parent ≠ "/" then
      match wcMkdir fs parent with
      | .error e => .error e
      | .ok fs1 => .ok (setFile fs1 n content)
    else .ok (setFile fs n content)

/-- `WebContainerManager.fileExists` (a successful `stat`). -/
def wcFileExists (fs : FS) (filePath : String) : Bool :=
  let n := normalizePath filePath
  (getFile fs n).isSome || fs.dirs.contains n

/-! # GitHubRepository: manifest enhancement and project materialization -/

/-- `GitHubRepository.createEnhancedPackageJson`: the base manifest (hardcoded
defaults with the project-type config spread over `scripts`), then the
remote manifest spread over the base, with `scripts`/`dependencies`/
`devDependencies` merged sub-object-wise (remote entries win on collision). -/
def createEnhancedPackageJson (repo owner : String) (repoData : RepoData)
    (existingPackageJson : Option PartialPkg) (projectType : String) :
    PackageJson :=
  let config := getProjectConfig projectType
  let base : PackageJson := {
    name := repo,
    version := "1.0.0",
    description :=
      (if truthyStr repoData.description then jsShowOpt repoData.description
       else "Project loaded from " ++ owner ++ "/" ++ repo),
    main := "index.js",
    scripts := objMerge
      [("start", "node index.js"), ("dev", "node index.js"),
       ("build", "echo \x27No build script specified\x27"),
       ("test", "echo \"Error: no test specified\" && exit 1")]
      config.scripts,
    keywords := repoData.topics.getD [],
    author := owner,
    license :=
      (if truthyStr repoData.license_spdx then jsShowOpt repoData.license_spdx
       else "ISC"),
    repository_url := "https://github.com/" ++ owner ++ "/" ++ repo ++ ".git",
    homepage := "https://github.com/" ++ owner ++ "/" ++ repo ++ "#readme",
    dependencies := config.dependencies,
    devDependencies := [] }
  match existingPackageJson with
  | none => base
  | some ex =>
      { name := ex.name.getD base.name,
        version := ex.version.getD base.version,
        description := ex.description.getD base.description,
        main := ex.main.getD base.main,
        scripts := objMerge base.scripts (ex.scripts.getD []),
        keywords := ex.keywords.getD base.keywords,
        author := ex.author.getD base.author,
        license := ex.license.getD base.license,
        repository_url := ex.repository_url.getD base.repository_url,
        homepage := ex.homepage.getD base.homepage,
        dependencies := objMerge base.dependencies (ex.dependencies.getD []),
        devDependencies := objMerge base.devDependencies (ex.devDependencies.getD []) }

/-- Import-operation state: the virtual filesystem plus the ordered trace of
network fetches issued so far. -/
structure ImpState where
  fs : FS
  trace : List String
deriving Repr, DecidableEq

/-- The import computations live in `EStateM`: state threading with errors
that abort the operation (uncaught JavaScript throws). -/
abbrev ImpM := EStateM JsError ImpState

def mkdirM (p : String) : ImpM Unit := fun st =>
  match wcMkdir st.fs p with
  | .ok fs1 => .ok () { st with fs := fs1 }
  | .error e => .error e st

def writeFileM (p : String) (c : FileContent) : ImpM Unit := fun st =>
  match wcWriteFile st.fs p c with
  | .ok fs1 => .ok () { st with fs := fs1 }
  | .error e => .error e st

def fileExistsM (p : String) : ImpM Bool := fun st =>
  .ok (wcFileExists st.fs p) st

def fetchFileM (env : NetEnv) (owner repo filepath : String) :
    ImpM (Option String) := fun st =>
  let (r, tr) := fetchFileContent env owner repo filepath
  .ok r { st with trace := st.trace ++ tr }

def fetchInfoM (env : NetEnv) (owner repo : String) : ImpM RepoData := fun st =>
  let (r, tr) := fetchRepositoryInfo env owner repo
  .ok r { st with trace := st.trace ++ tr }

/-- `filepath.includes('/') ? filepath.substring(0, filepath.lastIndexOf('/')) : ''`. -/
def dirPartOf (filepath : String) : String :=
  if strContains filepath "/" then
    String.mk (filepath.toList.take (lastSlashIdx filepath.toList))
  else ""

/-- The fixed candidate list of `createProjectFiles`, extended with the
config's files and (for Astro) the Astro starter paths. -/
def filesToFetch (config : ProjectConfig) (projectType : String) : List String :=
  (["README.md", "LICENSE", ".gitignore", "index.js", "app.js", "server.js",
    "src/index.js", "src/app.js", "src/main.js", "src/main.ts",
    "tsconfig.json", "vite.config.js", "vite.config.ts"] ++
   config.configFiles ++ config.mainFiles) ++
  (if projectType = "astro" then
    ["src/pages/index.astro", "src/layouts/Layout.astro", "astro.config.mjs",
     "astro.config.js"]
   else [])

/-- One iteration of the fetch loop in `createProjectFiles`: fetch the file;
if content arrived, create the directory and write the file, with the whole
body's throws caught (partial effects before a throw persist). Returns
whether a file was created. -/
def fetchLoopStepCore (env : NetEnv) (owner repo filepath : String)
    (st : ImpState) : Bool × ImpState :=
  let (content?, tr) := fetchFileContent env owner repo filepath
  let st := { st with trace := st.trace ++ tr }
  match content? with
  | none => (false, st)
  | some content =>
      if content = "" then (false, st)
      else
        let body : ImpM Unit := do
          let dirPath := dirPartOf filepath
          if dirPath ≠ "" then mkdirM (repo ++ "/" ++ dirPath)
          writeFileM (repo ++ "/" ++ filepath) (.text content)
        match body st with
        | .ok _ st1 => (true, st1)
        | .error _ st1 => (false, st1)

def fetchLoopStep (env : NetEnv) (owner repo filepath : String) : ImpM Bool :=
  fun st =>
    let p := fetchLoopStepCore env owner repo filepath st
    .ok p.1 p.2

def createProjectFilesLoop (env : NetEnv) (owner repo : String) :
    List String → ImpM Nat
  | [] => pure 0
  | fp :: rest => do
      let created ← fetchLoopStep env owner repo fp
      let n ← createProjectFilesLoop env owner repo rest
      pure (if created then n + 1 else n)

/-- `GitHubRepository.createAstroFiles`. -/
def createAstroFilesM (owner repo : String) (repoData : RepoData) : ImpM Unit := do
  mkdirM (repo ++ "/src")
  mkdirM (repo ++ "/src/pages")
  mkdirM (repo ++ "/src/components")
  mkdirM (repo ++ "/src/layouts")
  mkdirM (repo ++ "/public")
  writeFileM (repo ++ "/src/pages/index.astro")
    (.text (generateAstroIndexPage repo owner repoData))
  writeFileM (repo ++ "/src/layouts/Layout.astro") (.text createAstroLayout)
  let configExists ← fileExistsM (repo ++ "/astro.config.mjs")
  if ! configExists then
    writeFileM (repo ++ "/astro.config.mjs") (.text createAstroConfig)
  else pure ()

/-- `GitHubRepository.checkMainFileExists`. -/
def checkMainFileExistsM (repo : String) (config : ProjectConfig) : ImpM Bool :=
  fun st =>
    .ok ((["index.js", "app.js", "server.js", "src/index.js", "src/app.js"] ++
      config.mainFiles).any (fun f => wcFileExists st.fs (repo ++ "/" ++ f))) st

/-- `GitHubRepository.createFallbackFiles`. -/
def createFallbackFilesM (owner repo : String) (repoData : RepoData)
    (projectType : String) : ImpM Unit := do
  let readmeExists ← fileExistsM (repo ++ "/README.md")
  if ! readmeExists then
    writeFileM (repo ++ "/README.md")
      (.text (generateReadme repo owner repoData projectType))
  else pure ()
  let mainFileExists ← checkMainFileExistsM repo (getProjectConfig projectType)
  if ! mainFileExists then
    if projectType = "astro" then createAstroFilesM owner repo repoData
    else
      writeFileM (repo ++ "/index.js")
        (.text (generateFallbackIndexJs repo owner repoData))
  else pure ()

/-- `GitHubRepository.createProjectDirectories`: every error is caught (only
non-`EEXIST` codes are even logged), so this never aborts the import. -/
def createProjectDirectoriesM (repo : String) (directories : List String) :
    ImpM Unit := fun st =>
  .ok () { st with fs := directories.foldl (fun fs dir =>
    match wcMkdir fs (repo ++ "/" ++ dir) with
    | .ok fs1 => fs1
    | .error _ => fs) st.fs }

/-- `GitHubRepository.createProjectFiles`. -/
def createProjectFilesM (env : NetEnv) (owner repo : String)
    (repoData : RepoData) (projectType : String) : ImpM Nat := do
  let config := getProjectConfig projectType
  let filesCreated ← createProjectFilesLoop env owner repo
    (filesToFetch config projectType)
  createFallbackFilesM owner repo repoData projectType
  createProjectDirectoriesM repo config.directories
  pure filesCreated

/-- The project record returned by `createProjectFromRepository`. -/
structure Project where
  name : String
  owner : String
  ptype : String
  path : String
  filesCreated : Nat
  packageJson : PackageJson
  repoData : RepoData
deriving Repr, DecidableEq

/-- `GitHubRepository.createProjectFromRepository`: project directory, manifest
parse and type detection (a `JSON.parse` throw is caught, keeping the `node`
defaults), enhanced manifest write, file materialization. -/
def createProjectFromRepository (env : NetEnv) (owner repo : String)
    (repoData : RepoData) (packageJsonContent : Option String) :
    ImpM Project := do
  mkdirM repo
  let parsed : Option PartialPkg × String :=
    match packageJsonContent with
    | some content =>
        (match env.jsonParse content with
         | some j => (some j.pkg, detectProjectType (some j.pkg) [])
         | none => (none, "node"))
    | none => (none, "node")
  let packageJson := parsed.1
  let projectType := parsed.2
  let finalPackageJson :=
    createEnhancedPackageJson repo owner repoData packageJson projectType
  writeFileM (repo ++ "/package.json") (.pkg finalPackageJson)
  let filesCreated ← createProjectFilesM env owner repo repoData projectType
  pure { name := repo, owner := owner, ptype := projectType,
         path := "/" ++ repo, filesCreated := filesCreated,
         packageJson := finalPackageJson, repoData := repoData }

/-- `GitHubRepository.loadRepository`: URL parse (the only guarded throw),
metadata and manifest fetch, then project materialization; any error past the
parse is rethrown by the surrounding catch.  Returns the outcome, the final
filesystem, and the ordered network-call trace. -/
def loadRepository (env : NetEnv) (fs : FS) (githubUrl : String) :
    Except JsError Project × FS × List String :=
  match parseGitHubUrl githubUrl with
  | none => (.error .invalidUrl, fs, [])
  | some ref =>
      let body : ImpM Project := do
        let repoData ← fetchInfoM env ref.owner ref.repo
        let packageJsonContent ← fetchFileM env ref.owner ref.repo "package.json"
        createProjectFromRepository env ref.owner ref.repo repoData
          packageJsonContent
      match body { fs := fs, trace := [] } with
      | .ok p st => (.ok p, st.fs, st.trace)
      | .error e st => (.error e, st.fs, st.trace)

/-! # Concrete environments and filesystem probes used in witnesses -/

/-- A network where every fetch fails (unreachable network). -/
def envAllFail : NetEnv :=
  { fetch := fun _ => none, jsonParse := fun _ => none, atob := fun _ => none }

/-- A network where only the raw `master` URL for `acme/widgets/package.json`
responds. -/
def envMasterOnly : NetEnv :=
  { fetch := fun u =>
      if u = "https://raw.githubusercontent.com/acme/widgets/master/package.json"
      then some "master-content" else none,
    jsonParse := fun _ => none,
    atob := fun _ => none }

/-- A network for a repository literally named `api.github.com`: the raw
`main` URL answers with a JSON body that has no `content` field. -/
def envApiNamedRepo : NetEnv :=
  { fetch := fun u =>
      if u = "https://raw.githubusercontent.com/acme/api.github.com/main/package.json"
      then some "\x7b\"name\":\"x\"\x7d" else none,
    jsonParse := fun s =>
      if s = "\x7b\"name\":\"x\"\x7d"
      then some { repo := createFallbackRepoData "acme" "api.github.com" }
      else none,
    atob := fun _ => none }

/-- A network where both raw URLs fail and the contents API answers with JSON
that parses but carries no `content` field. -/
def envApiNoContent : NetEnv :=
  { fetch := fun u =>
      if u = "https://api.github.com/repos/acme/widgets/contents/package.json"
      then some "\x7b\"name\":\"widgets\"\x7d" else none,
    jsonParse := fun s =>
      if s = "\x7b\"name\":\"widgets\"\x7d"
      then some { repo := createFallbackRepoData "acme" "widgets" }
      else none,
    atob := fun _ => none }

/-- Does the file at `p` exist with text content containing `sub`? -/
def fileTextContains (fs : FS) (p sub : String) : Bool :=
  match getFile fs p with
  | some (.text s) => strContains s sub
  | _ => false

/-- The `name` field of a manifest stored at `p`, if one is stored there. -/
def filePkgName (fs : FS) (p : String) : Option String :=
  match getFile fs p with
  | some (.pkg q) => some q.name
  | _ => none

/-- Validity of one `writeFile` target: the normalized path passes validation
and so does the parent directory the write implicitly creates. -/
def writePathOk (p : String) : Bool :=
  isValidPath (normalizePath p) &&
  (decide (parentDirOf (normalizePath p) = "") ||
   decide (parentDirOf (normalizePath p) = "/") ||
   isValidPath (normalizePath (parentDirOf (normalizePath p))))

/-- Path validity for every write the import performs outside the per-file
catch, covering both the generic and the Astro fallback branches. -/
def importPathsOk (r : String) : Bool :=
  isValidPath (normalizePath r) &&
  writePathOk (r ++ "/package.json") &&
  writePathOk (r ++ "/README.md") &&
  writePathOk (r ++ "/index.js") &&
  isValidPath (normalizePath (r ++ "/src")) &&
  isValidPath (normalizePath (r ++ "/src/pages")) &&
  isValidPath (normalizePath (r ++ "/src/components")) &&
  isValidPath (normalizePath (r ++ "/src/layouts")) &&
  isValidPath (normalizePath (r ++ "/public")) &&
  writePathOk (r ++ "/src/pages/index.astro") &&
  writePathOk (r ++ "/src/layouts/Layout.astro") &&
  writePathOk (r ++ "/astro.config.mjs")

/-- Probe: the payload of an `invalidPath` import failure. -/
def isInvalidPathError : Except JsError Project → Option String
  | .error (.invalidPath p) => some p
  | _ => none

/-! # Theorems -/

/-! ## Claim C1: port extraction on bare `localhost:<n>` chunks -/

/-- C1 (code bug, evaluation at the failing input): the chunk
`"localhost:4321"` yields no port, although 4321 is in range and
`/localhost:(\d+)(?!\d)/g` is in the pattern list — with the `g` flag,
`String.match` returns only full-match texts, so `match[1]` is undefined for a
single occurrence (and a full-match text like `"localhost:4321"` parses to
`NaN` otherwise).  The intended framework-specific pattern path does work, as
the second conjunct shows. -/
theorem parseServerPort_bare_localhost_bug :
    parseServerPort "localhost:4321" = none ∧
    parseServerPort "Local: http://localhost:4321" = some 4321 := by
  constructor
  · decide
  · decide

/-! ## Claim C7: classifier totality over inputs -/

/-- C7 (counterexample): on a non-string input (`none`, e.g. `null`), each of
the three classifier entry points immediately calls `output.match` and throws
a TypeError instead of returning a signal-free result. -/
theorem classifiers_throw_on_nonstring :
    jsParseServerPort none = .error .typeError ∧
    jsContainsReadyMessage none = .error .typeError ∧
    jsContainsError none = .error .typeError :=
  ⟨rfl, rfl, rfl⟩

/-- C7 (amended): for every *string* chunk — including the empty string and
partial lines — all three classifiers return without throwing, and the empty
string yields no signal (`null`/`false`). -/
theorem classifiers_total_on_strings :
    (∀ s : String,
      jsParseServerPort (some s) = .ok (parseServerPort s) ∧
      jsContainsReadyMessage (some s) = .ok (containsReadyMessage s) ∧
      jsContainsError (some s) = .ok (containsError s)) ∧
    parseServerPort "" = none ∧
    containsReadyMessage "" = false ∧
    containsError "" = false := by
  refine ⟨fun s => ⟨rfl, rfl, rfl⟩, by decide, by decide, by decide⟩

/-! ## Claim C8: slugification is idempotent -/

theorem sanChar_idem (c : Char) : sanChar (sanChar c) = sanChar c := by
  by_cases h : ('a' ≤ c ∧ c ≤ 'z') ∨ ('A' ≤ c ∧ c ≤ 'Z') ∨
      ('0' ≤ c ∧ c ≤ '9') ∨ c = '.' ∨ c = '-'
  · simp only [sanChar, if_pos h]
  · simp only [sanChar, if_neg h]
    decide

theorem mem_collapseGo {c : Char} :
    ∀ (l : List Char) (p : Char), c ∈ collapseGo p l → c ∈ l := by
  intro l
  induction l with
  | nil => intro p h; simp [collapseGo] at h
  | cons d t ih =>
      intro p h
      simp only [collapseGo] at h
      split at h
      · exact List.mem_cons_of_mem _ (ih p h)
      · rcases List.mem_cons.mp h with h | h
        · exact List.mem_cons.mpr (Or.inl h)
        · exact List.mem_cons_of_mem _ (ih d h)

theorem mem_collapse {c : Char} {l : List Char}
    (h : c ∈ collapseUnderscores l) : c ∈ l := by
  cases l with
  | nil => simp [collapseUnderscores] at h
  | cons d t =>
      simp only [collapseUnderscores] at h
      rcases List.mem_cons.mp h with h | h
      · exact List.mem_cons.mpr (Or.inl h)
      · exact List.mem_cons_of_mem _ (mem_collapseGo t d h)

theorem mem_stripLead {c : Char} {l : List Char}
    (h : c ∈ stripLead l) : c ∈ l := by
  cases l with
  | nil => simp [stripLead] at h
  | cons d t =>
      simp only [stripLead] at h
      split at h
      · exact List.mem_cons_of_mem _ h
      · exact h

theorem mem_stripTrail {c : Char} :
    ∀ (l : List Char), c ∈ stripTrail l → c ∈ l
  | [] => by simp [stripTrail]
  | [d] => by
      simp only [stripTrail]
      split
      · intro h; cases h
      · exact id
  | d :: e :: rest => by
      intro h
      simp only [stripTrail] at h
      rcases List.mem_cons.mp h with h | h
      · exact List.mem_cons.mpr (Or.inl h)
      · exact List.mem_cons_of_mem _ (mem_stripTrail (e :: rest) h)

theorem noDouble_tail {c : Char} {l : List Char}
    (h : noDouble (c :: l)) : noDouble l := by
  cases l with
  | nil => trivial
  | cons d t => exact h.2

theorem noDouble_collapseGo : ∀ (l : List Char) (p : Char),
    noDouble (p :: collapseGo p l)
  | [], _ => trivial
  | d :: t, p => by
      simp only [collapseGo]
      split
      · exact noDouble_collapseGo t p
      · next h => exact ⟨h, noDouble_collapseGo t d⟩

theorem noDouble_collapse (l : List Char) : noDouble (collapseUnderscores l) := by
  cases l with
  | nil => trivial
  | cons c t => exact noDouble_collapseGo t c

theorem collapseGo_fix : ∀ (l : List Char) (p : Char),
    noDouble (p :: l) → collapseGo p l = l
  | [], _, _ => rfl
  | d :: t, p, h => by
      simp only [collapseGo, if_neg h.1]
      rw [collapseGo_fix t d h.2]

theorem collapse_fix {l : List Char} (h : noDouble l) :
    collapseUnderscores l = l := by
  cases l with
  | nil => rfl
  | cons c t =>
      simp only [collapseUnderscores]
      rw [collapseGo_fix t c h]

theorem noDouble_stripLead {l : List Char} (h : noDouble l) :
    noDouble (stripLead l) := by
  cases l with
  | nil => trivial
  | cons c t =>
      simp only [stripLead]
      split
      · exact noDouble_tail h
      · exact h

theorem headNotU_stripLead {l : List Char} (h : noDouble l) :
    (stripLead l).head? ≠ some '_' := by
  cases l with
  | nil => simp [stripLead]
  | cons c t =>
      simp only [stripLead]
      split
      · next hc =>
          cases t with
          | nil => simp
          | cons d r =>
              have hd : ¬ (c = '_' ∧ d = '_') := h.1
              simp only [List.head?]
              intro he
              exact hd ⟨hc, by injection he⟩
      · next hc => simp only [List.head?]; intro he; exact hc (by injection he)

theorem stripLead_fix {l : List Char} (h : l.head? ≠ some '_') :
    stripLead l = l := by
  cases l with
  | nil => rfl
  | cons c t =>
      simp only [stripLead]
      rw [if_neg]
      intro hc
      exact h (by simp [hc])

theorem stripTrail_head : ∀ (l : List Char),
    (stripTrail l).head? = l.head? ∨ stripTrail l = []
  | [] => Or.inl rfl
  | [c] => by
      simp only [stripTrail]
      split
      · exact Or.inr rfl
      · exact Or.inl rfl
  | c :: d :: rest => by simp only [stripTrail]; exact Or.inl rfl

theorem stripTrail_nil_cases : ∀ (d : Char) (rest : List Char),
    stripTrail (d :: rest) = [] → rest = [] ∧ d = '_'
  | d, [] => by
      simp only [stripTrail]
      split
      · next hd => exact fun _ => ⟨by trivial, hd⟩
      · intro h; cases h
  | d, e :: r => by simp [stripTrail]

theorem noDouble_stripTrail : ∀ (l : List Char), noDouble l →
    noDouble (stripTrail l)
  | [] => fun _ => trivial
  | [c] => by
      intro _
      simp only [stripTrail]
      split
      · trivial
      · trivial
  | c :: d :: rest => by
      intro h
      simp only [stripTrail]
      have ih := noDouble_stripTrail (d :: rest) h.2
      cases hx : stripTrail (d :: rest) with
      | nil => trivial
      | cons e w =>
          rcases stripTrail_head (d :: rest) with hh | hh
          · rw [hx] at hh
            have he : e = d := by
              simp only [List.head?] at hh
              injection hh
            subst he
            rw [hx] at ih
            exact ⟨h.1, ih⟩
          · rw [hx] at hh; cases hh

theorem getLast?_stripTrail_ne : ∀ (l : List Char), noDouble l →
    (stripTrail l).getLast? ≠ some '_'
  | [] => by intro _; simp [stripTrail]
  | [c] => by
      intro _
      simp only [stripTrail]
      split
      · simp
      · next hc => simp only [List.getLast?_singleton]; intro he; exact hc (by injection he)
  | c :: d :: rest => by
      intro h
      simp only [stripTrail]
      have ih := getLast?_stripTrail_ne (d :: rest) h.2
      cases hx : stripTrail (d :: rest) with
      | nil =>
          have := stripTrail_nil_cases d rest hx
          have hc : ¬ (c = '_' ∧ d = '_') := h.1
          simp only [List.getLast?_singleton]
          intro he
          exact hc ⟨by injection he, this.2⟩
      | cons e w =>
          rw [List.getLast?_cons_cons]
          rw [hx] at ih
          exact ih

theorem stripTrail_fix : ∀ (l : List Char), l.getLast? ≠ some '_' →
    stripTrail l = l
  | [] => fun _ => rfl
  | [c] => by
      intro h
      simp only [stripTrail]
      rw [if_neg]
      intro hc
      exact h (by simp [hc, List.getLast?_singleton])
  | c :: d :: rest => by
      intro h
      simp only [stripTrail]
      rw [stripTrail_fix (d :: rest) (by rwa [List.getLast?_cons_cons] at h)]

theorem replaceBad_fix : ∀ {l : List Char}, (∀ c ∈ l, sanChar c = c) →
    replaceBad l = l := by
  intro l h
  induction l with
  | nil => rfl
  | cons c t ih =>
      simp only [replaceBad, List.map_cons]
      rw [h c (List.mem_cons_self c t)]
      have := ih (fun d hd => h d (List.mem_cons_of_mem c hd))
      simpa [replaceBad] using this

/-- C8 (confirmed): `sanitizeFilename` is idempotent — its output has only
kept characters and single underscores, neither leading nor trailing, which
every stage then fixes. -/
theorem sanitizeFilename_idempotent (s : String) :
    sanitizeFilename (sanitizeFilename s) = sanitizeFilename s := by
  have htl : ∀ (l : List Char), (String.mk l).toList = l := fun _ => rfl
  unfold sanitizeFilename
  rw [htl]
  have hnd0 : noDouble (collapseUnderscores (replaceBad s.toList)) :=
    noDouble_collapse _
  have hnd1 : noDouble (stripLead (collapseUnderscores (replaceBad s.toList))) :=
    noDouble_stripLead hnd0
  have hchars : ∀ c ∈ stripTrail (stripLead (collapseUnderscores (replaceBad s.toList))),
      sanChar c = c := by
    intro c hc
    have h1 := mem_stripLead (mem_stripTrail _ hc)
    have h2 := mem_collapse h1
    rcases List.mem_map.mp h2 with ⟨a, _, ha⟩
    rw [← ha]
    exact sanChar_idem a
  have hnd2 : noDouble (stripTrail (stripLead (collapseUnderscores (replaceBad s.toList)))) :=
    noDouble_stripTrail _ hnd1
  have hhead : (stripTrail (stripLead (collapseUnderscores (replaceBad s.toList)))).head? ≠ some '_' := by
    rcases stripTrail_head (stripLead (collapseUnderscores (replaceBad s.toList))) with hh | hh
    · rw [hh]; exact headNotU_stripLead hnd0
    · rw [hh]; simp
  have hlast : (stripTrail (stripLead (collapseUnderscores (replaceBad s.toList)))).getLast? ≠ some '_' :=
    getLast?_stripTrail_ne _ hnd1
  rw [replaceBad_fix hchars, collapse_fix hnd2, stripLead_fix hhead,
    stripTrail_fix _ hlast]

/-! ## Claim C10: dangerous-command blocking -/

theorem listIsInfixOf_iff (sub : List Char) :
    ∀ (hay : List Char), listIsInfixOf sub hay = true ↔ sub <:+: hay := by
  intro hay
  induction hay with
  | nil =>
      simp only [listIsInfixOf]
      rw [List.isPrefixOf_iff_prefix]
      constructor
      · intro h; exact h.isInfix
      · intro h; exact (List.infix_nil.mp h) ▸ List.nil_prefix
  | cons c t ih =>
      simp only [listIsInfixOf, Bool.or_eq_true]
      rw [List.isPrefixOf_iff_prefix, ih]
      exact (List.infix_cons_iff).symm

/-- C9-adjacent helper removed; containment transfers through `strContains`. -/
theorem strContains_iff (hay sub : String) :
    strContains hay sub = true ↔ sub.toList <:+: hay.toList := by
  unfold strContains
  exact listIsInfixOf_iff _ _

/-- C10 (confirmed): a command containing (case-insensitively) one of the
fixed dangerous substrings is never forwarded to the shell input stream and
`writeToShell` returns `false`; a command containing none of them passes the
safety check. -/
theorem writeToShell_blocks_dangerous :
    (∀ (st : TermState) (cmd : String),
      (∃ d ∈ dangerousCommands, (jsToLower d).toList <:+: (jsToLower cmd).toList) →
      writeToShell st cmd = (false, [])) ∧
    (∀ cmd : String,
      (∀ d ∈ dangerousCommands, ¬ (jsToLower d).toList <:+: (jsToLower cmd).toList) →
      isSafeCommand cmd = true) := by
  constructor
  · rintro st cmd ⟨d, hd, hinf⟩
    have hunsafe : isSafeCommand cmd = false := by
      simp only [isSafeCommand, Bool.not_eq_false', List.any_eq_true]
      exact ⟨d, hd, (strContains_iff _ _).mpr hinf⟩
    simp [writeToShell, hunsafe]
  · intro cmd h
    simp only [isSafeCommand, Bool.not_eq_true', List.any_eq_false]
    intro d hd hc
    exact h d hd ((strContains_iff _ _).mp hc)

/-- C10 witness: a concrete blocked command (contains `sudo rm`) and a
concrete allowed command. -/
theorem writeToShell_blocks_dangerous_witness :
    writeToShell ⟨some ⟨some 1⟩, true⟩ "sudo rm -rf /tmp" = (false, []) ∧
    isSafeCommand "npm install" = true := by
  constructor
  · exact writeToShell_blocks_dangerous.1 _ _ ⟨"sudo rm", by decide, by decide⟩
  · exact writeToShell_blocks_dangerous.2 _ (by decide)

/-! ## Claim C9: preview-state recency check -/

/-- C9 (confirmed): loading a persisted entry applies the 24-hour recency
check — a parseable state whose timestamp is older than 24 hours is treated
as absent, and one younger than 24 hours is returned. -/
theorem loadState_recency (env : StorageEnv) (key s : String)
    (st : StoredState) (ts : Int)
    (hget : env.getItem ("preview_" ++ key) = some s)
    (hparse : env.parse s = some st)
    (hts : st.timestamp = some ts) :
    (env.now - ts > 24 * 60 * 60 * 1000 → loadState env key = none) ∧
    (env.now - ts < 24 * 60 * 60 * 1000 → loadState env key = some st) := by
  constructor
  · intro hold
    simp only [loadState, hget, hparse, hts]
    rw [if_neg]
    omega
  · intro hyoung
    simp only [loadState, hget, hparse, hts]
    rw [if_pos hyoung]

/-- C9 witness: a fresh entry is returned; a stale one (25h old) is absent. -/
theorem loadState_recency_witness :
    loadState
      { getItem := fun k => if k = "preview_repo" then some "fresh" else none,
        parse := fun v => if v = "fresh" then some ⟨some 1000, []⟩ else none,
        now := 2000 } "repo" = some ⟨some 1000, []⟩ ∧
    loadState
      { getItem := fun k => if k = "preview_repo" then some "stale" else none,
        parse := fun v => if v = "stale" then some ⟨some 0, []⟩ else none,
        now := 25 * 60 * 60 * 1000 } "repo" = none := by
  constructor
  · exact (loadState_recency _ "repo" "fresh" ⟨some 1000, []⟩ 1000
      (by decide) (by decide) rfl).2 (by decide)
  · exact (loadState_recency _ "repo" "stale" ⟨some 0, []⟩ 0
      (by decide) (by decide) rfl).1 (by decide)

/-! ## Claim C3: manifest merge precedence -/

theorem lookup_append (l₁ l₂ : List (String × String)) (k : String) :
    (l₁ ++ l₂).lookup k = ((l₁.lookup k).orElse (fun _ => l₂.lookup k)) := by
  induction l₁ with
  | nil => simp [List.lookup]
  | cons kv t ih =>
      simp only [List.cons_append, List.lookup]
      split
      · rfl
      · exact ih

theorem lookup_map_override (b e : List (String × String)) (k : String) :
    (b.map (fun kv => (kv.1, (e.lookup kv.1).getD kv.2))).lookup k =
      (b.lookup k).map (fun v => (e.lookup k).getD v) := by
  induction b with
  | nil => simp [List.lookup]
  | cons kv t ih =>
      obtain ⟨k1, v1⟩ := kv
      simp only [List.map_cons, List.lookup]
      cases hbeq : (k == k1) with
      | true =>
          have hk : k = k1 := by simpa using hbeq
          rw [hk]
          simp
      | false => exact ih

theorem lookup_filter_notin (b e : List (String × String)) (k : String) :
    (e.filter (fun kv => (b.lookup kv.1).isNone)).lookup k =
      if (b.lookup k).isSome then none else e.lookup k := by
  induction e with
  | nil => simp [List.lookup]
  | cons kv t ih =>
      obtain ⟨k1, v1⟩ := kv
      by_cases hk : k = k1
      · have hbeq : (k == k1) = true := by simpa using hk
        cases hb : (b.lookup k1).isNone with
        | true =>
            rw [List.filter_cons_of_pos (by simpa using hb)]
            have hs : (b.lookup k).isSome = false := by
              rw [hk]
              cases h : b.lookup k1 <;> simp_all
            simp [List.lookup, hbeq, hs]
        | false =>
            rw [List.filter_cons_of_neg (by simpa using hb)]
            have hs : (b.lookup k).isSome = true := by
              rw [hk]
              cases h : b.lookup k1 <;> simp_all
            rw [ih, hs]
            simp
      · have hbeq : (k == k1) = false := by simpa using hk
        cases hb : (b.lookup k1).isNone with
        | true =>
            rw [List.filter_cons_of_pos (by simpa using hb)]
            simp only [List.lookup, hbeq]
            exact ih
        | false =>
            rw [List.filter_cons_of_neg (by simpa using hb)]
            rw [ih]
            simp only [List.lookup, hbeq]

theorem lookup_objMerge (b e : List (String × String)) (k : String) :
    (objMerge b e).lookup k = ((e.lookup k).orElse (fun _ => b.lookup k)) := by
  unfold objMerge
  rw [lookup_append, lookup_map_override, lookup_filter_notin]
  cases hb : b.lookup k with
  | none => cases he : e.lookup k <;> simp
  | some v => cases he : e.lookup k <;> simp

/-- C3 (counterexample): the spec's merge example demands a caller-override
layer that beats the remote manifest (`dev` ending as `"d"`), but the merge in
`createEnhancedPackageJson` has no override argument at all — the
remote-fetched manifest is the final layer, so feeding it the spec's remote
layer `{dev: "b", build: "c"}` leaves `dev` at `"b"`, not `"d"`. -/
theorem manifest_merge_no_override_layer :
    ((createEnhancedPackageJson "widgets" "acme"
        (createFallbackRepoData "acme" "widgets")
        (some { scripts := some [("dev", "b"), ("build", "c")] })
        "node").scripts.lookup "dev" = some "b") ∧
    ((createEnhancedPackageJson "widgets" "acme"
        (createFallbackRepoData "acme" "widgets")
        (some { scripts := some [("dev", "b"), ("build", "c")] })
        "node").scripts.lookup "build" = some "c") ∧
    some "b" ≠ some "d" := by
  refine ⟨by decide, by decide, by decide⟩

/-- C3 (amended): the manifest merge is two-layer per sub-object — the base
manifest (hardcoded defaults with the project-type config spread over them,
i.e. the `existing = none` result) and the remote-fetched manifest — with the
remote layer winning on key collision, for each of `scripts`, `dependencies`
and `devDependencies`; there is no caller-override layer. -/
theorem createEnhancedPackageJson_merge_law (repo owner : String)
    (rd : RepoData) (ex : PartialPkg) (pt k : String) :
    ((createEnhancedPackageJson repo owner rd (some ex) pt).scripts.lookup k =
      (((ex.scripts.getD []).lookup k).orElse (fun _ =>
        (createEnhancedPackageJson repo owner rd none pt).scripts.lookup k))) ∧
    ((createEnhancedPackageJson repo owner rd (some ex) pt).dependencies.lookup k =
      (((ex.dependencies.getD []).lookup k).orElse (fun _ =>
        (createEnhancedPackageJson repo owner rd none pt).dependencies.lookup k))) ∧
    ((createEnhancedPackageJson repo owner rd (some ex) pt).devDependencies.lookup k =
      (((ex.devDependencies.getD []).lookup k).orElse (fun _ =>
        (createEnhancedPackageJson repo owner rd none pt).devDependencies.lookup k))) := by
  refine ⟨?_, ?_, ?_⟩
  · have h : (createEnhancedPackageJson repo owner rd (some ex) pt).scripts =
        objMerge ((createEnhancedPackageJson repo owner rd none pt).scripts)
          (ex.scripts.getD []) := rfl
    rw [h, lookup_objMerge]
  · have h : (createEnhancedPackageJson repo owner rd (some ex) pt).dependencies =
        objMerge ((createEnhancedPackageJson repo owner rd none pt).dependencies)
          (ex.dependencies.getD []) := rfl
    rw [h, lookup_objMerge]
  · have h : (createEnhancedPackageJson repo owner rd (some ex) pt).devDependencies =
        objMerge ((createEnhancedPackageJson repo owner rd none pt).devDependencies)
          (ex.devDependencies.getD []) := rfl
    rw [h, lookup_objMerge]

/-! ## Claim C6: metadata fetch never fails the import -/

theorem fetchInfoGo_fail (env : NetEnv) :
    ∀ atts : List (String × Bool),
      (∀ p ∈ atts, env.fetch p.1 = none ∨
        ∃ t, env.fetch p.1 = some t ∧ env.jsonParse t = none) →
      fetchInfoGo env atts = (none, atts.map Prod.fst)
  | [], _ => rfl
  | (url, isP) :: rest, h => by
      have hrest := fetchInfoGo_fail env rest
        (fun p hp => h p (List.mem_cons_of_mem _ hp))
      rcases h (url, isP) (List.mem_cons_self _ _) with hf | ⟨t, hf, hp⟩
      · simp only [fetchInfoGo, hf, hrest, List.map_cons]
      · simp only [fetchInfoGo, hf, hp, hrest, List.map_cons]

theorem fetchRepositoryInfo_fallback_of_fail (env : NetEnv) (o r : String)
    (h : ∀ p ∈ infoAttempts o r, env.fetch p.1 = none ∨
      ∃ t, env.fetch p.1 = some t ∧ env.jsonParse t = none) :
    fetchRepositoryInfo env o r =
      (createFallbackRepoData o r, (infoAttempts o r).map Prod.fst) := by
  unfold fetchRepositoryInfo
  rw [fetchInfoGo_fail env _ h]

/-- C6 (counterexample): with every fetch failing, the fallback metadata's
description is the synthesized string `"Repository acme/widgets"`, not empty
as the claim states. -/
theorem fallback_repo_description_not_empty :
    (fetchRepositoryInfo envAllFail "acme" "widgets").1.description =
      some "Repository acme/widgets" ∧
    "Repository acme/widgets" ≠ "" := by
  constructor
  · rw [fetchRepositoryInfo_fallback_of_fail envAllFail "acme" "widgets"
      (fun p _ => Or.inl rfl)]
    rfl
  · decide

/-- C6 (amended): if the repository-info endpoint and all its fallbacks fail
(network error, non-2xx — both modelled by a failed fetch — or a parse
failure), `fetchRepositoryInfo` returns, instead of throwing, the synthesized
minimal metadata record with the repository name, the owner, the placeholder
description `"Repository <owner>/<repo>"`, and default branch `main`. -/
theorem fetchRepositoryInfo_never_fails (env : NetEnv) (o r : String)
    (h : ∀ p ∈ infoAttempts o r, env.fetch p.1 = none ∨
      ∃ t, env.fetch p.1 = some t ∧ env.jsonParse t = none) :
    (fetchRepositoryInfo env o r).1 = createFallbackRepoData o r ∧
    (createFallbackRepoData o r).name = r ∧
    (createFallbackRepoData o r).owner_login = o ∧
    (createFallbackRepoData o r).description =
      some ("Repository " ++ o ++ "/" ++ r) ∧
    (createFallbackRepoData o r).default_branch = "main" := by
  refine ⟨?_, rfl, rfl, rfl, rfl⟩
  rw [fetchRepositoryInfo_fallback_of_fail env o r h]

/-- C6 witness. -/
theorem fetchRepositoryInfo_never_fails_witness :
    (fetchRepositoryInfo envAllFail "acme" "widgets").1 =
      createFallbackRepoData "acme" "widgets" ∧
    (createFallbackRepoData "acme" "widgets").default_branch = "main" := by
  have h := fetchRepositoryInfo_never_fails envAllFail "acme" "widgets"
    (fun p _ => Or.inl rfl)
  exact ⟨h.1, h.2.2.2.2⟩

/-! ## Claim C5: file-fetch attempt order -/

theorem strContains_append_of_left (pre rest sub : String)
    (h : strContains pre sub = true) : strContains (pre ++ rest) sub = true := by
  rw [strContains_iff] at h ⊢
  rw [show (pre ++ rest).toList = pre.toList ++ rest.toList from rfl]
  exact h.trans ⟨[], rest.toList, by simp⟩

/-- C5 (counterexample): for a repository literally named `api.github.com`,
the raw `main` fetch succeeds, but because the code sniffs API responses by a
substring test on the URL, the JSON body (which has no `content` field) is
discarded and the loop falls through — the first successful fetch's content is
not returned. -/
theorem fetchFileContent_sniffing_counterexample :
    envApiNamedRepo.fetch
      "https://raw.githubusercontent.com/acme/api.github.com/main/package.json" =
      some "\x7b\"name\":\"x\"\x7d" ∧
    (fetchFileContent envApiNamedRepo "acme" "api.github.com" "package.json").1 =
      none := by
  constructor
  · decide
  · decide

/-- The contents-API URL always contains the sniffed substring. -/
theorem apiUrl_contains_api (o r fp : String) :
    strContains
      ("https://api.github.com/repos/" ++ o ++ "/" ++ r ++ "/contents/" ++ fp)
      "api.github.com" = true := by
  apply strContains_append_of_left
  apply strContains_append_of_left
  apply strContains_append_of_left
  apply strContains_append_of_left
  apply strContains_append_of_left
  decide

/-- C5 (amended), two parts.  First: provided the raw URLs do not themselves
contain `api.github.com` and the contents-API response, when ok, is JSON with
a nonempty base64 `content` field that decodes, `fetchFileContent` tries, in
this exact order, raw `main`, raw `master`, then the contents API (decoding
its content field); the first success wins and total failure yields `null`
rather than an error — i.e. it coincides with the specification-worded
`specFetchFileContent`.  Second: an API response whose JSON parses but has no
nonempty `content` field is not returned as content — the loop falls through,
and since the API is the last attempt the result is `null`. -/
theorem fetchFileContent_order :
    (∀ (env : NetEnv) (o r fp : String),
      strContains
        ("https://raw.githubusercontent.com/" ++ o ++ "/" ++ r ++ "/" ++ "main" ++ "/" ++ fp)
        "api.github.com" = false →
      strContains
        ("https://raw.githubusercontent.com/" ++ o ++ "/" ++ r ++ "/" ++ "master" ++ "/" ++ fp)
        "api.github.com" = false →
      (∀ body, env.fetch
          ("https://api.github.com/repos/" ++ o ++ "/" ++ r ++ "/contents/" ++ fp) =
          some body →
        ∃ j c d, env.jsonParse body = some j ∧ j.content = some c ∧ c ≠ "" ∧
          env.atob c = some d) →
      fetchFileContent env o r fp = specFetchFileContent env o r fp) ∧
    (∀ (env : NetEnv) (o r fp body : String) (j : JVal),
      env.fetch
        ("https://raw.githubusercontent.com/" ++ o ++ "/" ++ r ++ "/" ++ "main" ++ "/" ++ fp) =
        none →
      env.fetch
        ("https://raw.githubusercontent.com/" ++ o ++ "/" ++ r ++ "/" ++ "master" ++ "/" ++ fp) =
        none →
      env.fetch
        ("https://api.github.com/repos/" ++ o ++ "/" ++ r ++ "/contents/" ++ fp) =
        some body →
      env.jsonParse body = some j →
      (j.content = none ∨ j.content = some "") →
      (fetchFileContent env o r fp).1 = none) := by
  constructor
  · intro env o r fp hmain hmaster hapi
    have hin := apiUrl_contains_api o r fp
    unfold fetchFileContent fileAttempts generateGitHubRawUrls specFetchFileContent
    simp only [List.map_cons, List.map_nil, List.cons_append, List.nil_append]
    cases hm : env.fetch
        ("https://raw.githubusercontent.com/" ++ o ++ "/" ++ r ++ "/" ++ "main" ++ "/" ++ fp) with
    | some b => simp [fetchFileGo, hm, hmain]
    | none =>
        cases hms : env.fetch
            ("https://raw.githubusercontent.com/" ++ o ++ "/" ++ r ++ "/" ++ "master" ++ "/" ++ fp) with
        | some b => simp [fetchFileGo, hm, hms, hmaster]
        | none =>
            cases ha : env.fetch
                ("https://api.github.com/repos/" ++ o ++ "/" ++ r ++ "/contents/" ++ fp) with
            | none => simp [fetchFileGo, hm, hms, ha]
            | some body =>
                obtain ⟨j, c, d, hj, hc, hne, hd⟩ := hapi body ha
                simp [fetchFileGo, hm, hms, ha, hin, hj, hc, hne, hd]
  · intro env o r fp body j hm hms ha hj hc
    have hin := apiUrl_contains_api o r fp
    unfold fetchFileContent fileAttempts generateGitHubRawUrls
    simp only [List.map_cons, List.map_nil, List.cons_append, List.nil_append]
    rcases hc with hc | hc <;> simp [fetchFileGo, hm, hms, ha, hin, hj, hc]

/-- C5 witness: with only the raw `master` URL responding, the fetch follows
the specified order and returns the master content; and with only the API
responding with content-less JSON, the result is `null`. -/
theorem fetchFileContent_order_witness :
    (fetchFileContent envMasterOnly "acme" "widgets" "package.json" =
      specFetchFileContent envMasterOnly "acme" "widgets" "package.json" ∧
    (fetchFileContent envMasterOnly "acme" "widgets" "package.json").1 =
      some "master-content") ∧
    (fetchFileContent envApiNoContent "acme" "widgets" "package.json").1 =
      none := by
  refine ⟨⟨?_, by decide⟩, ?_⟩
  · exact fetchFileContent_order.1 envMasterOnly "acme" "widgets" "package.json"
      (by decide) (by decide)
      (fun body h => by
        rw [show envMasterOnly.fetch
          ("https://api.github.com/repos/" ++ "acme" ++ "/" ++ "widgets" ++
            "/contents/" ++ "package.json") = none from by decide] at h
        cases h)
  · exact fetchFileContent_order.2 envApiNoContent "acme" "widgets"
      "package.json" "\x7b\"name\":\"widgets\"\x7d"
      { repo := createFallbackRepoData "acme" "widgets" }
      (by decide) (by decide) (by decide) (by decide) (Or.inl (by decide))

/-! ## Import pipeline lemmas (shared by the C2 and C4 theorems) -/

theorem bind_ok {α β : Type} (x : ImpM α) (f : α → ImpM β) (st : ImpState)
    (a : α) (s : ImpState) (h : x st = .ok a s) : (x >>= f) st = f a s := by
  show EStateM.bind x f st = f a s
  unfold EStateM.bind
  rw [h]

theorem bind_err {α β : Type} (x : ImpM α) (f : α → ImpM β) (st : ImpState)
    (e : JsError) (s : ImpState) (h : x st = .error e s) :
    (x >>= f) st = .error e s := by
  show EStateM.bind x f st = .error e s
  unfold EStateM.bind
  rw [h]

theorem pure_apply {α : Type} (a : α) (st : ImpState) :
    (pure a : ImpM α) st = .ok a st := rfl

theorem bind_assoc_apply {α β γ : Type} (x : ImpM α) (f : α → ImpM β)
    (g : β → ImpM γ) (st : ImpState) :
    ((x >>= f) >>= g) st = (x >>= fun a => f a >>= g) st := by
  cases h : x st with
  | ok a s =>
      have h1 : (x >>= f) st = f a s := bind_ok _ _ _ _ _ h
      cases h2 : f a s with
      | ok b s2 =>
          rw [bind_ok _ _ _ _ _ (h1.trans h2), bind_ok _ _ _ _ _ h,
            bind_ok _ _ _ _ _ h2]
      | error e s2 =>
          rw [bind_err _ _ _ _ _ (h1.trans h2), bind_ok _ _ _ _ _ h,
            bind_err _ _ _ _ _ h2]
  | error e s =>
      rw [bind_err _ _ _ _ _ (bind_err _ _ _ _ _ h), bind_err _ _ _ _ _ h]

theorem fetchFileGo_offline (env : NetEnv) (h : ∀ u, env.fetch u = none) :
    ∀ atts, fetchFileGo env atts = (none, atts)
  | [] => rfl
  | url :: rest => by
      simp only [fetchFileGo, h url, fetchFileGo_offline env h rest]

theorem fetchFileContent_offline (env : NetEnv) (h : ∀ u, env.fetch u = none)
    (o r fp : String) :
    fetchFileContent env o r fp = (none, fileAttempts o r fp) := by
  unfold fetchFileContent
  exact fetchFileGo_offline env h _

theorem fetchInfoM_eq (env : NetEnv) (o r : String) (st : ImpState)
    (rd : RepoData) (tr : List String)
    (h : fetchRepositoryInfo env o r = (rd, tr)) :
    fetchInfoM env o r st = .ok rd { st with trace := st.trace ++ tr } := by
  simp only [fetchInfoM, h]

theorem fetchFileM_eq (env : NetEnv) (o r fp : String) (st : ImpState)
    (res : Option String) (tr : List String)
    (h : fetchFileContent env o r fp = (res, tr)) :
    fetchFileM env o r fp st = .ok res { st with trace := st.trace ++ tr } := by
  simp only [fetchFileM, h]

theorem mkdirM_ok (p : String) (st : ImpState)
    (h : isValidPath (normalizePath p) = true) :
    mkdirM p st = .ok ()
      { st with fs := { st.fs with dirs := normalizePath p :: st.fs.dirs } } := by
  simp [mkdirM, wcMkdir, h]

theorem mkdirM_err (p : String) (st : ImpState)
    (h : isValidPath (normalizePath p) = false) :
    mkdirM p st = .error (.invalidPath (normalizePath p)) st := by
  simp [mkdirM, wcMkdir, h]

theorem writeFileM_noparent (p : String) (c : FileContent) (st : ImpState)
    (h1 : isValidPath (normalizePath p) = true)
    (h2 : parentDirOf (normalizePath p) = "" ∨ parentDirOf (normalizePath p) = "/") :
    writeFileM p c st = .ok ()
      { st with fs := setFile st.fs (normalizePath p) c } := by
  have hcond : ¬ (parentDirOf (normalizePath p) ≠ "" ∧
      parentDirOf (normalizePath p) ≠ "/") := by
    rcases h2 with h2 | h2 <;> simp [h2]
  simp [writeFileM, wcWriteFile, h1, hcond]

theorem writeFileM_parent (p : String) (c : FileContent) (st : ImpState)
    (h1 : isValidPath (normalizePath p) = true)
    (h2 : parentDirOf (normalizePath p) ≠ "")
    (h3 : parentDirOf (normalizePath p) ≠ "/")
    (h4 : isValidPath (normalizePath (parentDirOf (normalizePath p))) = true) :
    writeFileM p c st = .ok ()
      { st with fs := setFile { st.fs with dirs := normalizePath (parentDirOf (normalizePath p)) :: st.fs.dirs } (normalizePath p) c } := by
  simp [writeFileM, wcWriteFile, h1, h2, h3, h4, wcMkdir]

theorem writeFileM_exists (p : String) (c : FileContent) (st : ImpState)
    (h : writePathOk p = true) :
    ∃ fs2, writeFileM p c st = .ok () { st with fs := fs2 } := by
  simp only [writePathOk, Bool.and_eq_true, Bool.or_eq_true,
    decide_eq_true_eq] at h
  obtain ⟨h1, h2⟩ := h
  rcases h2 with h2 | h2
  · rcases h2 with h2 | h2
    · exact ⟨_, writeFileM_noparent p c st h1 (Or.inl h2)⟩
    · exact ⟨_, writeFileM_noparent p c st h1 (Or.inr h2)⟩
  · by_cases he : parentDirOf (normalizePath p) = ""
    · exact ⟨_, writeFileM_noparent p c st h1 (Or.inl he)⟩
    · by_cases hr : parentDirOf (normalizePath p) = "/"
      · exact ⟨_, writeFileM_noparent p c st h1 (Or.inr hr)⟩
      · exact ⟨_, writeFileM_parent p c st h1 he hr h2⟩

theorem fileExistsM_apply (p : String) (st : ImpState) :
    fileExistsM p st = .ok (wcFileExists st.fs p) st := rfl

theorem checkMainFileExistsM_apply (r : String) (cfg : ProjectConfig)
    (st : ImpState) :
    checkMainFileExistsM r cfg st = .ok
      ((["index.js", "app.js", "server.js", "src/index.js", "src/app.js"] ++
        cfg.mainFiles).any (fun f => wcFileExists st.fs (r ++ "/" ++ f))) st := rfl

theorem createProjectDirectoriesM_apply (r : String) (ds : List String)
    (st : ImpState) :
    ∃ fs2, createProjectDirectoriesM r ds st = .ok () { st with fs := fs2 } :=
  ⟨_, rfl⟩

theorem createProjectDirectoriesM_eq (r : String) (ds : List String)
    (st : ImpState) :
    createProjectDirectoriesM r ds st = .ok () { st with
      fs := ds.foldl (fun fs dir =>
        match wcMkdir fs (r ++ "/" ++ dir) with
        | .ok fs1 => fs1
        | .error _ => fs) st.fs } := rfl

theorem fetchLoopStep_total (env : NetEnv) (o r fp : String) (st : ImpState) :
    ∃ b st', fetchLoopStep env o r fp st = .ok b st' :=
  ⟨(fetchLoopStepCore env o r fp st).1, (fetchLoopStepCore env o r fp st).2, rfl⟩

theorem createProjectFilesLoop_total (env : NetEnv) (o r : String) :
    ∀ (fps : List String) (st : ImpState),
      ∃ n st', createProjectFilesLoop env o r fps st = .ok n st'
  | [], st => ⟨0, st, rfl⟩
  | fp :: rest, st => by
      obtain ⟨b, st1, h1⟩ := fetchLoopStep_total env o r fp st
      obtain ⟨n, st2, h2⟩ := createProjectFilesLoop_total env o r rest st1
      refine ⟨if b then n + 1 else n, st2, ?_⟩
      simp only [createProjectFilesLoop]
      rw [bind_ok _ _ _ _ _ h1, bind_ok _ _ _ _ _ h2, pure_apply]

theorem createProjectFilesLoop_offline (env : NetEnv) (o r : String)
    (h : ∀ u, env.fetch u = none) :
    ∀ (fps : List String) (st : ImpState),
      createProjectFilesLoop env o r fps st =
        .ok 0 { st with trace := st.trace ++
          (fps.map (fun fp => fileAttempts o r fp)).flatten }
  | [], st => by simp [createProjectFilesLoop, pure_apply]
  | fp :: rest, st => by
      have hstep : fetchLoopStep env o r fp st =
          .ok false { st with trace := st.trace ++ fileAttempts o r fp } := by
        unfold fetchLoopStep fetchLoopStepCore
        simp only [fetchFileContent_offline env h]
      have h2 := createProjectFilesLoop_offline env o r h rest
        { st with trace := st.trace ++ fileAttempts o r fp }
      simp only [createProjectFilesLoop]
      rw [bind_ok _ _ _ _ _ hstep, bind_ok _ _ _ _ _ h2, pure_apply]
      simp [List.append_assoc]

theorem importPathsOk_unpack (r : String) (h : importPathsOk r = true) :
    isValidPath (normalizePath r) = true ∧
    writePathOk (r ++ "/package.json") = true ∧
    writePathOk (r ++ "/README.md") = true ∧
    writePathOk (r ++ "/index.js") = true ∧
    isValidPath (normalizePath (r ++ "/src")) = true ∧
    isValidPath (normalizePath (r ++ "/src/pages")) = true ∧
    isValidPath (normalizePath (r ++ "/src/components")) = true ∧
    isValidPath (normalizePath (r ++ "/src/layouts")) = true ∧
    isValidPath (normalizePath (r ++ "/public")) = true ∧
    writePathOk (r ++ "/src/pages/index.astro") = true ∧
    writePathOk (r ++ "/src/layouts/Layout.astro") = true ∧
    writePathOk (r ++ "/astro.config.mjs") = true := by
  simp only [importPathsOk, Bool.and_eq_true] at h
  obtain ⟨⟨⟨⟨⟨⟨⟨⟨⟨⟨⟨h1, h2⟩, h3⟩, h4⟩, h5⟩, h6⟩, h7⟩, h8⟩, h9⟩, h10⟩, h11⟩, h12⟩ := h
  exact ⟨h1, h2, h3, h4, h5, h6, h7, h8, h9, h10, h11, h12⟩

theorem createAstroFilesM_total (o r : String) (rd : RepoData) (st : ImpState)
    (h5 : isValidPath (normalizePath (r ++ "/src")) = true)
    (h6 : isValidPath (normalizePath (r ++ "/src/pages")) = true)
    (h7 : isValidPath (normalizePath (r ++ "/src/components")) = true)
    (h8 : isValidPath (normalizePath (r ++ "/src/layouts")) = true)
    (h9 : isValidPath (normalizePath (r ++ "/public")) = true)
    (h10 : writePathOk (r ++ "/src/pages/index.astro") = true)
    (h11 : writePathOk (r ++ "/src/layouts/Layout.astro") = true)
    (h12 : writePathOk (r ++ "/astro.config.mjs") = true) :
    ∃ st', createAstroFilesM o r rd st = .ok () st' := by
  simp only [createAstroFilesM]
  rw [bind_ok _ _ _ _ _ (mkdirM_ok _ _ h5)]
  rw [bind_ok _ _ _ _ _ (mkdirM_ok _ _ h6)]
  rw [bind_ok _ _ _ _ _ (mkdirM_ok _ _ h7)]
  rw [bind_ok _ _ _ _ _ (mkdirM_ok _ _ h8)]
  rw [bind_ok _ _ _ _ _ (mkdirM_ok _ _ h9)]
  obtain ⟨fsA, hA⟩ := writeFileM_exists (r ++ "/src/pages/index.astro") _ _ h10
  rw [bind_ok _ _ _ _ _ hA]
  obtain ⟨fsB, hB⟩ := writeFileM_exists (r ++ "/src/layouts/Layout.astro") _ _ h11
  rw [bind_ok _ _ _ _ _ hB]
  rw [bind_ok _ _ _ _ _ (fileExistsM_apply _ _)]
  cases hce : wcFileExists fsB (r ++ "/astro.config.mjs") with
  | true =>
      simp only [hce, Bool.not_true, Bool.false_eq_true, if_false]
      exact ⟨_, pure_apply _ _⟩
  | false =>
      simp only [hce, Bool.not_false, if_true]
      obtain ⟨fsC, hC⟩ := writeFileM_exists (r ++ "/astro.config.mjs")
        (.text createAstroConfig) { fs := fsB, trace := st.trace } h12
      exact ⟨_, hC⟩

theorem createFallbackFilesM_total (o r : String) (rd : RepoData) (pt : String)
    (st : ImpState) (h : importPathsOk r = true) :
    ∃ st', createFallbackFilesM o r rd pt st = .ok () st' := by
  obtain ⟨h1, h2, h3, h4, h5, h6, h7, h8, h9, h10, h11, h12⟩ :=
    importPathsOk_unpack r h
  simp only [createFallbackFilesM]
  rw [bind_ok _ _ _ _ _ (fileExistsM_apply _ _)]
  have hcont : ∀ st1 : ImpState,
      ∃ st', (do
        let mainFileExists ← checkMainFileExistsM r (getProjectConfig pt)
        if ! mainFileExists then
          if pt = "astro" then createAstroFilesM o r rd
          else
            writeFileM (r ++ "/index.js")
              (.text (generateFallbackIndexJs r o rd))
        else pure () : ImpM Unit) st1 = .ok () st' := by
    intro st1
    rw [bind_ok _ _ _ _ _ (checkMainFileExistsM_apply _ _ _)]
    cases hmf : (["index.js", "app.js", "server.js", "src/index.js", "src/app.js"] ++
        (getProjectConfig pt).mainFiles).any
        (fun f => wcFileExists st1.fs (r ++ "/" ++ f)) with
    | true =>
        simp only [hmf, Bool.not_true, Bool.false_eq_true, if_false]
        exact ⟨_, pure_apply _ _⟩
    | false =>
        simp only [hmf, Bool.not_false, if_true]
        by_cases hpt : pt = "astro"
        · rw [if_pos hpt]
          exact createAstroFilesM_total o r rd st1 h5 h6 h7 h8 h9 h10 h11 h12
        · rw [if_neg hpt]
          obtain ⟨fs2, hw⟩ := writeFileM_exists (r ++ "/index.js")
            (.text (generateFallbackIndexJs r o rd)) st1 h4
          exact ⟨_, hw⟩
  cases hre : wcFileExists st.fs (r ++ "/README.md") with
  | true =>
      simp only [hre, Bool.not_true, Bool.false_eq_true, if_false]
      rw [bind_ok _ _ _ _ _ (pure_apply _ _)]
      exact hcont st
  | false =>
      simp only [hre, Bool.not_false, if_true]
      obtain ⟨fs2, hw⟩ := writeFileM_exists (r ++ "/README.md")
        (.text (generateReadme r o rd pt)) st h3
      rw [bind_ok _ _ _ _ _ hw]
      exact hcont _

theorem createProjectFilesM_total (env : NetEnv) (o r : String) (rd : RepoData)
    (pt : String) (st : ImpState) (h : importPathsOk r = true) :
    ∃ n st', createProjectFilesM env o r rd pt st = .ok n st' := by
  simp only [createProjectFilesM]
  obtain ⟨n, st1, hL⟩ := createProjectFilesLoop_total env o r
    (filesToFetch (getProjectConfig pt) pt) st
  rw [bind_ok _ _ _ _ _ hL]
  obtain ⟨st2, hF⟩ := createFallbackFilesM_total o r rd pt st1 h
  rw [bind_ok _ _ _ _ _ hF]
  obtain ⟨fs3, hD⟩ := createProjectDirectoriesM_apply r
    (getProjectConfig pt).directories st2
  rw [bind_ok _ _ _ _ _ hD, pure_apply]
  exact ⟨n, _, rfl⟩

theorem createProjectFromRepository_total (env : NetEnv) (o r : String)
    (rd : RepoData) (pc : Option String) (st : ImpState)
    (h : importPathsOk r = true) :
    ∃ p st', createProjectFromRepository env o r rd pc st = .ok p st' := by
  obtain ⟨h1, h2, _⟩ := importPathsOk_unpack r h
  simp only [createProjectFromRepository]
  rw [bind_ok _ _ _ _ _ (mkdirM_ok _ _ h1)]
  obtain ⟨fs2, hw⟩ := writeFileM_exists (r ++ "/package.json") _ _ h2
  rw [bind_ok _ _ _ _ _ hw]
  obtain ⟨n, st3, hP⟩ := createProjectFilesM_total env o r rd _ _ h
  rw [bind_ok _ _ _ _ _ hP, pure_apply]
  exact ⟨_, _, rfl⟩

theorem loadRepository_invalid (env : NetEnv) (fs : FS) (url : String)
    (h : parseGitHubUrl url = none) :
    loadRepository env fs url = (.error .invalidUrl, fs, []) := by
  simp only [loadRepository, h]

theorem loadRepository_ok_of_pathsOk (env : NetEnv) (fs : FS) (url : String)
    (ref : RepoRef) (hp : parseGitHubUrl url = some ref)
    (hok : importPathsOk ref.repo = true) :
    ∃ p fs' tr, loadRepository env fs url = (.ok p, fs', tr) := by
  simp only [loadRepository, hp]
  cases hfi : fetchRepositoryInfo env ref.owner ref.repo with
  | mk rd tr1 =>
      rw [bind_ok _ _ _ _ _ (fetchInfoM_eq env _ _ _ _ _ hfi)]
      cases hfc : fetchFileContent env ref.owner ref.repo "package.json" with
      | mk pc tr2 =>
          rw [bind_ok _ _ _ _ _ (fetchFileM_eq env _ _ _ _ _ _ hfc)]
          obtain ⟨p, st', hC⟩ := createProjectFromRepository_total env
            ref.owner ref.repo rd pc _ hok
          rw [hC]
          exact ⟨p, st'.fs, st'.trace, rfl⟩

/-! ## Claim C4: parse failure as the guarded fatal error -/

/-- C4 (counterexample): for the parseable URL
`https://github.com/acme/wid:gets` (the repo segment contains `:`), the import
throws an `Invalid directory path` error past the parse step — so the
`InvalidUrl` parse failure is not the only fatal failure of the operation. -/
theorem import_fatal_beyond_parse :
    parseGitHubUrl "https://github.com/acme/wid:gets" =
      some ⟨"acme", "wid:gets"⟩ ∧
    isInvalidPathError
      (loadRepository envAllFail emptyFS "https://github.com/acme/wid:gets").1 =
      some "/wid:gets" := by
  have hp : parseGitHubUrl "https://github.com/acme/wid:gets" =
      some ⟨"acme", "wid:gets"⟩ := by decide
  refine ⟨hp, ?_⟩
  simp only [loadRepository, hp]
  rw [bind_ok _ _ _ _ _ (fetchInfoM_eq envAllFail _ _ _ _ _
    (fetchRepositoryInfo_fallback_of_fail envAllFail "acme" "wid:gets"
      (fun p _ => Or.inl rfl)))]
  rw [bind_ok _ _ _ _ _ (fetchFileM_eq envAllFail _ _ _ _ _ _
    (fetchFileContent_offline envAllFail (fun _ => rfl) "acme" "wid:gets"
      "package.json"))]
  simp only [createProjectFromRepository]
  rw [bind_err _ _ _ _ _ (mkdirM_err _ _ (by decide))]
  rfl

/-- C4 (amended): a URL that does not parse into owner/repo aborts the import
immediately with the `InvalidUrl` error, leaves the filesystem untouched, and
performs zero network calls; and for any URL that does parse, provided the
parsed repository name passes the filesystem path validation for the paths
the import writes, the operation completes without error under every network
environment — path validation being the only other fatal failure. -/
theorem import_parse_failure_behaviour :
    (∀ (env : NetEnv) (fs : FS) (url : String), parseGitHubUrl url = none →
      loadRepository env fs url = (.error .invalidUrl, fs, [])) ∧
    (∀ (env : NetEnv) (fs : FS) (url : String) (ref : RepoRef),
      parseGitHubUrl url = some ref → importPathsOk ref.repo = true →
      ∃ p fs' tr, loadRepository env fs url = (.ok p, fs', tr)) :=
  ⟨loadRepository_invalid, loadRepository_ok_of_pathsOk⟩

/-- C4 witness: the claim's example URL is rejected with no network calls,
and a well-formed repository name imports without a fatal error. -/
theorem import_parse_failure_behaviour_witness :
    loadRepository envAllFail emptyFS "https://example.com/a/b" =
      (.error .invalidUrl, emptyFS, []) ∧
    ∃ p fs' tr, loadRepository envAllFail emptyFS
      "https://github.com/acme/widgets" = (.ok p, fs', tr) := by
  constructor
  · exact import_parse_failure_behaviour.1 envAllFail emptyFS _ (by decide)
  · exact import_parse_failure_behaviour.2 envAllFail emptyFS _
      ⟨"acme", "widgets"⟩ (by decide) (by decide)

/-! ## Claim C2: offline import still materializes a project -/

/-- Helper: with every fetch failing, importing `acme/widgets` still
completes and writes the package manifest, README and entry point. -/
theorem offline_widgets_materializes :
    ∃ p fs' tr,
      loadRepository envAllFail emptyFS "https://github.com/acme/widgets" =
        (.ok p, fs', tr) ∧
      filePkgName fs' "/widgets/package.json" = some "widgets" ∧
      fileTextContains fs' "/widgets/README.md" "acme/widgets" = true ∧
      (getFile fs' "/widgets/index.js").isSome = true := by
  have hp : parseGitHubUrl "https://github.com/acme/widgets" =
      some ⟨"acme", "widgets"⟩ := by decide
  simp only [loadRepository, hp]
  rw [bind_ok _ _ _ _ _ (fetchInfoM_eq envAllFail _ _ _ _ _
    (fetchRepositoryInfo_fallback_of_fail envAllFail "acme" "widgets"
      (fun p _ => Or.inl rfl)))]
  rw [bind_ok _ _ _ _ _ (fetchFileM_eq envAllFail _ _ _ _ _ _
    (fetchFileContent_offline envAllFail (fun _ => rfl) "acme" "widgets"
      "package.json"))]
  simp only [createProjectFromRepository]
  rw [bind_ok _ _ _ _ _ (mkdirM_ok _ _ (by decide))]
  rw [bind_ok _ _ _ _ _ (writeFileM_parent _ _ _ (by decide) (by decide)
    (by decide) (by decide))]
  simp only [createProjectFilesM, createFallbackFilesM, bind_assoc_apply]
  rw [bind_ok _ _ _ _ _ (createProjectFilesLoop_offline envAllFail "acme"
    "widgets" (fun _ => rfl) (filesToFetch (getProjectConfig "node") "node") _)]
  simp only [bind_assoc_apply]
  rw [bind_ok _ _ _ _ _ (fileExistsM_apply _ _)]
  rw [if_pos (by decide)]
  simp only [bind_assoc_apply]
  rw [bind_ok _ _ _ _ _ (writeFileM_parent _ _ _ (by decide) (by decide)
    (by decide) (by decide))]
  simp only [bind_assoc_apply]
  rw [bind_ok _ _ _ _ _ (checkMainFileExistsM_apply _ _ _)]
  rw [if_pos (by decide)]
  rw [if_neg (by decide : ¬ ("node" : String) = "astro")]
  rw [bind_ok _ _ _ _ _ (writeFileM_parent _ _ _ (by decide) (by decide)
    (by decide) (by decide))]
  simp only [bind_assoc_apply]
  rw [bind_ok _ _ _ _ _ (createProjectDirectoriesM_eq _ _ _),
    bind_ok _ _ _ _ _ (pure_apply _ _), pure_apply]
  refine ⟨_, _, _, rfl, ?_, ?_, ?_⟩
  · decide
  · decide
  · decide

/-- C2 (counterexample): the syntactically valid GitHub URL
`https://github.com/acme/a..b` parses into owner/repo, every network fetch
fails, and yet the import aborts with an `Invalid directory path` error
instead of materializing a project — the unconditional offline-completion
claim fails without a path-validity proviso on the repository name. -/
theorem offline_import_counterexample :
    parseGitHubUrl "https://github.com/acme/a..b" =
      some ⟨"acme", "a..b"⟩ ∧
    isInvalidPathError
      (loadRepository envAllFail emptyFS "https://github.com/acme/a..b").1 =
      some "/a..b" := by
  have hp : parseGitHubUrl "https://github.com/acme/a..b" =
      some ⟨"acme", "a..b"⟩ := by decide
  refine ⟨hp, ?_⟩
  simp only [loadRepository, hp]
  rw [bind_ok _ _ _ _ _ (fetchInfoM_eq envAllFail _ _ _ _ _
    (fetchRepositoryInfo_fallback_of_fail envAllFail "acme" "a..b"
      (fun p _ => Or.inl rfl)))]
  rw [bind_ok _ _ _ _ _ (fetchFileM_eq envAllFail _ _ _ _ _ _
    (fetchFileContent_offline envAllFail (fun _ => rfl) "acme" "a..b"
      "package.json"))]
  simp only [createProjectFromRepository]
  rw [bind_err _ _ _ _ _ (mkdirM_err _ _ (by decide))]
  rfl

/-- C2 (amended): when every network fetch fails, an import whose URL parses
into owner/repo and whose repository name passes the filesystem path
validation completes without throwing; and for the URL
`https://github.com/acme/widgets` the materialized file set contains a
`package.json` whose name field is `widgets`, a synthesized `README.md`
mentioning `acme/widgets`, and a synthesized `index.js`. -/
theorem offline_import_materializes :
    (∀ (env : NetEnv) (fs : FS) (url : String) (ref : RepoRef),
      (∀ u, env.fetch u = none) → parseGitHubUrl url = some ref →
      importPathsOk ref.repo = true →
      ∃ p fs' tr, loadRepository env fs url = (.ok p, fs', tr)) ∧
    (∃ p fs' tr,
      loadRepository envAllFail emptyFS "https://github.com/acme/widgets" =
        (.ok p, fs', tr) ∧
      filePkgName fs' "/widgets/package.json" = some "widgets" ∧
      fileTextContains fs' "/widgets/README.md" "acme/widgets" = true ∧
      (getFile fs' "/widgets/index.js").isSome = true) :=
  ⟨fun env fs url ref _ hp hok =>
    loadRepository_ok_of_pathsOk env fs url ref hp hok,
   offline_widgets_materializes⟩

/-- C2 witness: the universal part applied to the all-fetches-fail
environment and the URL `https://github.com/acme/widgets`. -/
theorem offline_import_materializes_witness :
    ∃ p fs' tr, loadRepository envAllFail emptyFS
      "https://github.com/acme/widgets" = (.ok p, fs', tr) :=
  offline_import_materializes.1 envAllFail emptyFS _ ⟨"acme", "widgets"⟩
    (fun _ => rfl) (by decide) (by decide)
